import Mathlib

/-!
# zxdb client

A shallow embedding of the client side of the debugger, in four parts:

* the System root (`garnet/bin/zxdb/client/system_impl.cc`): the owner of the
  target list, the job-context list and the breakpoint registry, which fans
  lifecycle notifications out to its observers and forwards global control
  requests to the remote agent;
* thread controllers (`garnet/bin/zxdb/client/thread_controller.h`);
* member and base-class resolution (`garnet/bin/zxdb/expr/resolve_collection.h`,
  `garnet/bin/zxdb/symbols/inherited_from.cc`);
* the disassembler (`garnet/bin/zxdb/client/disassembler.h`).

Conventions of the embedding of the System root.

* `std::vector<std::unique_ptr<T>>` is a `List T`; `std::map<uint32_t, V>`
  is a key-ordered association list (`StdMap V`).
* A `Target*` / `JobContext*` is the address of the object (`addr`); a
  `Breakpoint*` is the breakpoint record itself, which the code below never
  mutates.
* Everything the code sends outwards (observer callbacks, remote requests)
  is appended to `SystemImpl.trace`, in program order.  An observer callback
  is recorded together with the collections of the System as they stand
  while the callback runs (`SystemData`), which is what the observer would
  read through `GetTargets()` / `GetBreakpoints()` at that moment.
  Observers are recorded, not executed: a call an observer would make back
  into the System is a further operation of the caller's sequence.
-/

namespace zxdb

-- Equality of results is decidable when equality of errors and of values is.
deriving instance DecidableEq for Except

/-! ## Ordered map (`std::map<uint32_t, V>`) -/

/-- A `std::map` keyed by integers: pairs in increasing key order. -/
abbrev StdMap (β : Type) := List (Nat × β)

/-- Embeds `std::map::find`: the value stored under `k`, if any. -/
def StdMap.find {β : Type} : StdMap β → Nat → Option β
  | [], _ => none
  | (k', v) :: rest, k => if k' = k then some v else StdMap.find rest k

/-- Embeds `m[k] = v`: overwrite the entry of `k`, or insert it at its place in key order. -/
def StdMap.assign {β : Type} : StdMap β → Nat → β → StdMap β
  | [], k, v => [(k, v)]
  | (k', v') :: rest, k, v =>
    if k < k' then (k, v) :: (k', v') :: rest
    else if k = k' then (k, v) :: rest
    else (k', v') :: StdMap.assign rest k v

/-- Embeds `std::map::erase` of the entry found under `k`. -/
def StdMap.erase {β : Type} : StdMap β → Nat → StdMap β
  | [], _ => []
  | (k', v') :: rest, k => if k' = k then rest else (k', v') :: StdMap.erase rest k

/-! ## Data model -/

/-- A live remote process, identified by its kernel object id. -/
structure ProcessImpl where
  koid : Nat
  deriving DecidableEq, Repr

/-- A debuggable unit; `process` is non-null exactly while it is attached. -/
structure TargetImpl where
  addr : Nat
  args : List String
  process : Option ProcessImpl
  deriving DecidableEq, Repr

/-- A job that can be attached independently of the targets. -/
structure JobContextImpl where
  addr : Nat
  deriving DecidableEq, Repr

/-- A breakpoint: its backend id and whether it is internal. -/
structure BreakpointImpl where
  backend_id : Nat
  is_internal : Bool
  deriving DecidableEq, Repr

/-- The three collections a `SystemImpl` owns. -/
structure SystemData where
  targets_ : List TargetImpl
  job_contexts_ : List JobContextImpl
  breakpoints_ : StdMap BreakpointImpl
  deriving DecidableEq, Repr

/-- The callbacks of `SystemObserver` that `system_impl.cc` invokes. -/
inductive Notification where
  | DidCreateTarget (target : Nat)
  | WillDestroyTarget (target : Nat)
  | DidCreateJobContext (job_context : Nat)
  | DidCreateBreakpoint (breakpoint : BreakpointImpl)
  | WillDestroyBreakpoint (breakpoint : BreakpointImpl)
  | GlobalDidCreateProcess (process : ProcessImpl)
  | GlobalWillDestroyProcess (process : ProcessImpl)
  | OnSymbolIndexingInformation (msg : String)
  deriving DecidableEq, Repr

/-- Embeds `debug_ipc::PauseRequest`, with the fields `Pause()` sets. -/
structure PauseRequest where
  process_koid : Nat := 0
  thread_koid : Nat := 0
  deriving DecidableEq, Repr

/-- Embeds `debug_ipc::ResumeRequest::How`. -/
inductive How where
  | kContinue
  | kStepInstruction
  | kStepInRange
  deriving DecidableEq, Repr

/-- Embeds `debug_ipc::ResumeRequest`, with the fields `Continue()` sets and the address
range of the step-in-range mode. -/
structure ResumeRequest where
  process_koid : Nat := 0
  how : How := How.kContinue
  range : Option (Nat × Nat) := none
  deriving DecidableEq, Repr

/-- What leaves the System: observer callbacks and requests to the remote agent. -/
inductive Event where
  | notify (observer : Nat) (what : Notification) (seen : SystemData)
  | remotePause (request : PauseRequest)
  | remoteResume (request : ResumeRequest)
  | remoteProcessTree
  | clearBuildIdCache
  deriving DecidableEq, Repr

/-- The System root: its collections, its observer list, the two allocation
counters of the surrounding process and the trace of what it has sent out. -/
structure SystemImpl extends SystemData where
  observers : List Nat
  next_breakpoint_id : Nat
  next_addr : Nat
  trace : List Event
  deriving DecidableEq, Repr

/-- A failure that ends the process instead of returning to the caller. -/
inductive Fatal where
  | notreached
  deriving DecidableEq, Repr

/-! ## Collaborators that are not part of `system_impl.cc` -/

/-- Modelled from the spec: the macro FXL_NOTREACHED (lib/fxl/logging.h) is not
part of system_impl.cc. The spec describes reaching it as a failure that
"fails fatally (programmer error, not a recoverable condition)". -/
def FXL_NOTREACHED : Except Fatal Unit := Except.error Fatal.notreached

/-- Modelled from the spec: the constructor of BreakpointImpl (breakpoint_impl.cc)
is not part of system_impl.cc. The spec gives every breakpoint "a
process-wide unique integer identifier (monotonically assigned, never reused)"
and an is_internal flag: the identifier is drawn from a counter that only grows. -/
def BreakpointImpl.make (s : SystemImpl) (is_internal : Bool) : BreakpointImpl × SystemImpl :=
  ({ backend_id := s.next_breakpoint_id, is_internal := is_internal },
   { s with next_breakpoint_id := s.next_breakpoint_id + 1 })

/-- Modelled from the spec: the constructor of TargetImpl (target_impl.cc) is not
part of system_impl.cc. The spec has it construct "a default Target": a new
object, with no process attached and an empty launch configuration. -/
def TargetImpl.make (s : SystemImpl) : TargetImpl × SystemImpl :=
  ({ addr := s.next_addr, args := [], process := none },
   { s with next_addr := s.next_addr + 1 })

/-- Modelled from the spec: TargetImpl::Clone (target_impl.cc) is not part of the
file system_impl.cc. The spec has it duplicate the "launch configuration into a new
Target sharing no live process". -/
def TargetImpl.Clone (clone : TargetImpl) (s : SystemImpl) : TargetImpl × SystemImpl :=
  ({ addr := s.next_addr, args := clone.args, process := none },
   { s with next_addr := s.next_addr + 1 })

/-- Modelled from the spec: the constructor of JobContextImpl (job_context_impl.cc)
is not part of system_impl.cc; a default job context is a new object. -/
def JobContextImpl.make (s : SystemImpl) : JobContextImpl × SystemImpl :=
  ({ addr := s.next_addr }, { s with next_addr := s.next_addr + 1 })

/-- Modelled from the spec: JobContextImpl::Clone (job_context_impl.cc) is not part
of the file system_impl.cc; the copy is a new object. -/
def JobContextImpl.Clone (_clone : JobContextImpl) (s : SystemImpl) : JobContextImpl × SystemImpl :=
  ({ addr := s.next_addr }, { s with next_addr := s.next_addr + 1 })

/-! ## `SystemImpl` -/

/-- The loop `for (auto& observer : observers()) observer.X(...)`: one callback
per observer, in list order, each seeing the collections as they stand. -/
def SystemImpl.notifyObservers (s : SystemImpl) (what : Notification) : SystemImpl :=
  { s with trace := s.trace ++ s.observers.map (fun o => Event.notify o what s.toSystemData) }

/-- Embeds `SystemImpl::NotifyDidCreateProcess`. -/
def SystemImpl.NotifyDidCreateProcess (s : SystemImpl) (process : ProcessImpl) : SystemImpl :=
  s.notifyObservers (Notification.GlobalDidCreateProcess process)

/-- Embeds `SystemImpl::NotifyWillDestroyProcess`. -/
def SystemImpl.NotifyWillDestroyProcess (s : SystemImpl) (process : ProcessImpl) : SystemImpl :=
  s.notifyObservers (Notification.GlobalWillDestroyProcess process)

/-- Modelled from the spec: TargetImpl::ImplicitlyDetach (target_impl.cc) is not
part of system_impl.cc. The spec has a target "forced to detach" so that
"process-destruction notifications fire" and the process pointer is non-null
"if and only if it is attached": on the target at index i, an attached process
is announced through NotifyWillDestroyProcess and then dropped; a target with
no process is left as it is. -/
def SystemImpl.ImplicitlyDetach (s : SystemImpl) (i : Nat) : SystemImpl :=
  match s.targets_[i]? with
  | none => s
  | some target =>
    match target.process with
    | none => s
    | some process =>
      let s1 := s.NotifyWillDestroyProcess process
      { s1 with targets_ := s1.targets_.set i { target with process := none } }

/-- Embeds `SystemImpl::AddNewTarget`: push back, then tell every observer. -/
def SystemImpl.AddNewTarget (s : SystemImpl) (target : TargetImpl) : SystemImpl :=
  let for_observers := target.addr
  let s1 := { s with targets_ := s.targets_ ++ [target] }
  s1.notifyObservers (Notification.DidCreateTarget for_observers)

/-- Embeds `SystemImpl::AddNewJobContext`: push back, then tell every observer. -/
def SystemImpl.AddNewJobContext (s : SystemImpl) (job_context : JobContextImpl) : SystemImpl :=
  let for_observers := job_context.addr
  let s1 := { s with job_contexts_ := s.job_contexts_ ++ [job_context] }
  s1.notifyObservers (Notification.DidCreateJobContext for_observers)

/-- Embeds `SystemImpl::SystemImpl`: an empty System (no observer can have registered
yet) to which the default target and the default job context are added. The
arguments are the values of the two allocation counters of the process. -/
def SystemImpl.construct (next_breakpoint_id next_addr : Nat) : SystemImpl :=
  let s0 : SystemImpl :=
    { targets_ := [], job_contexts_ := [], breakpoints_ := [], observers := [],
      next_breakpoint_id := next_breakpoint_id, next_addr := next_addr, trace := [] }
  let (target, s1) := TargetImpl.make s0
  let s2 := s1.AddNewTarget target
  let (job_context, s3) := JobContextImpl.make s2
  s3.AddNewJobContext job_context

/-- The body of the loop of the destructor for the target at index i. -/
def SystemImpl.destructTarget (s : SystemImpl) (i : Nat) : SystemImpl :=
  let s1 := s.ImplicitlyDetach i
  match s1.targets_[i]? with
  | none => s1
  | some target => s1.notifyObservers (Notification.WillDestroyTarget target.addr)

/-- The loop `for (auto& target : targets_)` of the destructor, from index i on,
with `remaining` targets still to visit. -/
def SystemImpl.destructLoop (s : SystemImpl) (i : Nat) : Nat → SystemImpl
  | 0 => s
  | remaining + 1 => SystemImpl.destructLoop (s.destructTarget i) (i + 1) remaining

/-- Embeds `SystemImpl::~SystemImpl`: detach and announce every target, then clear the list. -/
def SystemImpl.destruct (s : SystemImpl) : SystemImpl :=
  let s1 := s.destructLoop 0 s.targets_.length
  { s1 with targets_ := [] }

/-- Embeds `SystemImpl::ProcessImplFromKoid`: the scan over one list of targets. -/
def ProcessImplFromKoid_scan : List TargetImpl → Nat → Option ProcessImpl
  | [], _ => none
  | target :: rest, koid =>
    match target.process with
    | some process => if process.koid = koid then some process else ProcessImplFromKoid_scan rest koid
    | none => ProcessImplFromKoid_scan rest koid

/-- Embeds `SystemImpl::ProcessImplFromKoid`. -/
def SystemImpl.ProcessImplFromKoid (s : SystemImpl) (koid : Nat) : Option ProcessImpl :=
  ProcessImplFromKoid_scan s.targets_ koid

/-- Embeds `SystemImpl::ProcessFromKoid`. -/
def SystemImpl.ProcessFromKoid (s : SystemImpl) (koid : Nat) : Option ProcessImpl :=
  s.ProcessImplFromKoid koid

/-- Embeds `SystemImpl::GetTargets`. -/
def SystemImpl.GetTargets (s : SystemImpl) : List Nat :=
  s.targets_.map (fun t => t.addr)

/-- Embeds `SystemImpl::GetJobContexts`. -/
def SystemImpl.GetJobContexts (s : SystemImpl) : List Nat :=
  s.job_contexts_.map (fun t => t.addr)

/-- Embeds `SystemImpl::GetBreakpoints`: the registered breakpoints that are not internal, in key order. -/
def SystemImpl.GetBreakpoints (s : SystemImpl) : List BreakpointImpl :=
  (s.breakpoints_.filter (fun pair => !pair.2.is_internal)).map (fun pair => pair.2)

/-- Embeds `SystemImpl::GetProcessTree`: one request to the remote agent. -/
def SystemImpl.GetProcessTree (s : SystemImpl) : SystemImpl :=
  { s with trace := s.trace ++ [Event.remoteProcessTree] }

/-- Embeds `SystemImpl::CreateNewTarget`. -/
def SystemImpl.CreateNewTarget (s : SystemImpl) (clone : Option TargetImpl) : Nat × SystemImpl :=
  let (target, s1) :=
    match clone with
    | some c => TargetImpl.Clone c s
    | none => TargetImpl.make s
  let to_return := target.addr
  (to_return, s1.AddNewTarget target)

/-- Embeds `SystemImpl::CreateNewJobContext`. -/
def SystemImpl.CreateNewJobContext (s : SystemImpl) (clone : Option JobContextImpl) :
    Nat × SystemImpl :=
  let (job_context, s1) :=
    match clone with
    | some c => JobContextImpl.Clone c s
    | none => JobContextImpl.make s
  let to_return := job_context.addr
  (to_return, s1.AddNewJobContext job_context)

/-- Embeds `SystemImpl::CreateNewBreakpoint`. -/
def SystemImpl.CreateNewBreakpoint (s : SystemImpl) : BreakpointImpl × SystemImpl :=
  let (owning, s1) := BreakpointImpl.make s false
  let id := owning.backend_id
  let to_return := owning
  let s2 := { s1 with breakpoints_ := StdMap.assign s1.breakpoints_ id owning }
  (to_return, s2.notifyObservers (Notification.DidCreateBreakpoint to_return))

/-- Embeds `SystemImpl::CreateNewInternalBreakpoint`. -/
def SystemImpl.CreateNewInternalBreakpoint (s : SystemImpl) : BreakpointImpl × SystemImpl :=
  let (owning, s1) := BreakpointImpl.make s true
  let id := owning.backend_id
  let to_return := owning
  (to_return, { s1 with breakpoints_ := StdMap.assign s1.breakpoints_ id owning })

/-- Embeds `SystemImpl::DeleteBreakpoint`: the outcome of the call and the state it leaves. -/
def SystemImpl.DeleteBreakpoint (s : SystemImpl) (breakpoint : BreakpointImpl) :
    Except Fatal Unit × SystemImpl :=
  match StdMap.find s.breakpoints_ breakpoint.backend_id with
  | none =>
    match FXL_NOTREACHED with
    | Except.error e => (Except.error e, s)
    | Except.ok _ => (Except.ok (), s)
  | some found =>
    let s1 :=
      if !found.is_internal then
        s.notifyObservers (Notification.WillDestroyBreakpoint breakpoint)
      else s
    (Except.ok (), { s1 with breakpoints_ := StdMap.erase s1.breakpoints_ breakpoint.backend_id })

/-- Embeds `SystemImpl::Pause`. -/
def SystemImpl.Pause (s : SystemImpl) : SystemImpl :=
  let request : PauseRequest := {}
  let request := { request with process_koid := 0 }
  let request := { request with thread_koid := 0 }
  { s with trace := s.trace ++ [Event.remotePause request] }

/-- Embeds `SystemImpl::Continue`. -/
def SystemImpl.Continue (s : SystemImpl) : SystemImpl :=
  let request : ResumeRequest := {}
  let request := { request with process_koid := 0 }
  let request := { request with how := How.kContinue }
  { s with trace := s.trace ++ [Event.remoteResume request] }

/-- Embeds `SystemImpl::DidConnect`. -/
def SystemImpl.DidConnect (s : SystemImpl) : SystemImpl :=
  { s with trace := s.trace ++ [Event.clearBuildIdCache] }

/-- The loop of `SystemImpl::DidDisconnect` from index i on. -/
def SystemImpl.detachLoop (s : SystemImpl) (i : Nat) : Nat → SystemImpl
  | 0 => s
  | remaining + 1 => SystemImpl.detachLoop (s.ImplicitlyDetach i) (i + 1) remaining

/-- Embeds `SystemImpl::DidDisconnect`. -/
def SystemImpl.DidDisconnect (s : SystemImpl) : SystemImpl :=
  s.detachLoop 0 s.targets_.length

/-- Embeds `SystemImpl::BreakpointImplForId`. -/
def SystemImpl.BreakpointImplForId (s : SystemImpl) (id : Nat) : Option BreakpointImpl :=
  StdMap.find s.breakpoints_ id

/-! ## Sequences of operations -/

/-- Modelled from the spec: observer registration lives in the System base class
(system.h), which is not part of system_impl.cc. The spec has the root fan
"lifecycle notifications to observers": registering appends to the list that the
fan-out loops walk. -/
def SystemImpl.AddObserver (s : SystemImpl) (observer : Nat) : SystemImpl :=
  { s with observers := s.observers ++ [observer] }

/-- Modelled from the spec: observer removal lives in the System base class
(system.h), which is not part of system_impl.cc; an observer that is removed no
longer takes part in the fan-out. -/
def SystemImpl.RemoveObserver (s : SystemImpl) (observer : Nat) : SystemImpl :=
  { s with observers := s.observers.filter (fun o => o != observer) }

/-- The callback that the constructor installs on the symbol index: every
message of the index is forwarded to every observer. -/
def SystemImpl.OnSymbolIndexingInformation (s : SystemImpl) (msg : String) : SystemImpl :=
  s.notifyObservers (Notification.OnSymbolIndexingInformation msg)

/-- The operations of a live `SystemImpl` (everything but its destructor). -/
inductive Op where
  | CreateNewTarget (clone : Option TargetImpl)
  | CreateNewJobContext (clone : Option JobContextImpl)
  | CreateNewBreakpoint
  | CreateNewInternalBreakpoint
  | DeleteBreakpoint (breakpoint : BreakpointImpl)
  | GetProcessTree
  | Pause
  | Continue
  | DidConnect
  | DidDisconnect
  | NotifyDidCreateProcess (process : ProcessImpl)
  | NotifyWillDestroyProcess (process : ProcessImpl)
  | AddObserver (observer : Nat)
  | RemoveObserver (observer : Nat)
  | OnSymbolIndexingInformation (msg : String)
  deriving DecidableEq, Repr

/-- A running session: the breakpoints handed out so far (oldest first), whether
the process is still alive, and the System. -/
structure SessionRun where
  created : List BreakpointImpl
  status : Except Fatal Unit
  state : SystemImpl

/-- A session that starts at the System `s`. -/
def SessionRun.start (s : SystemImpl) : SessionRun :=
  { created := [], status := Except.ok (), state := s }

/-- One call on the System; after a fatal failure nothing runs any more. -/
def SessionRun.step (r : SessionRun) (op : Op) : SessionRun :=
  match r.status with
  | Except.error _ => r
  | Except.ok _ =>
    match op with
    | Op.CreateNewTarget clone => { r with state := (r.state.CreateNewTarget clone).2 }
    | Op.CreateNewJobContext clone => { r with state := (r.state.CreateNewJobContext clone).2 }
    | Op.CreateNewBreakpoint =>
      { r with created := r.created ++ [r.state.CreateNewBreakpoint.1],
               state := r.state.CreateNewBreakpoint.2 }
    | Op.CreateNewInternalBreakpoint =>
      { r with created := r.created ++ [r.state.CreateNewInternalBreakpoint.1],
               state := r.state.CreateNewInternalBreakpoint.2 }
    | Op.DeleteBreakpoint breakpoint =>
      { r with status := (r.state.DeleteBreakpoint breakpoint).1,
               state := (r.state.DeleteBreakpoint breakpoint).2 }
    | Op.GetProcessTree => { r with state := r.state.GetProcessTree }
    | Op.Pause => { r with state := r.state.Pause }
    | Op.Continue => { r with state := r.state.Continue }
    | Op.DidConnect => { r with state := r.state.DidConnect }
    | Op.DidDisconnect => { r with state := r.state.DidDisconnect }
    | Op.NotifyDidCreateProcess process => { r with state := r.state.NotifyDidCreateProcess process }
    | Op.NotifyWillDestroyProcess process =>
      { r with state := r.state.NotifyWillDestroyProcess process }
    | Op.AddObserver observer => { r with state := r.state.AddObserver observer }
    | Op.RemoveObserver observer => { r with state := r.state.RemoveObserver observer }
    | Op.OnSymbolIndexingInformation msg =>
      { r with state := r.state.OnSymbolIndexingInformation msg }

/-- The calls of `ops`, one after the other. -/
def SessionRun.run (r : SessionRun) (ops : List Op) : SessionRun :=
  ops.foldl SessionRun.step r

/-- Every key of the registry lies below the id counter: the next id is not registered. -/
def SystemImpl.counterAhead (s : SystemImpl) : Prop :=
  ∀ kv ∈ s.breakpoints_, kv.1 < s.next_breakpoint_id

/-! ## A concrete System used to exercise the statements -/

/-- A System with three targets (two of them attached), one job context, a user
breakpoint and an internal one, and two observers. -/
def demoSystem : SystemImpl :=
  { targets_ := [{ addr := 100, args := [], process := some { koid := 41 } },
                 { addr := 102, args := ["-v"], process := none },
                 { addr := 103, args := [], process := some { koid := 42 } }],
    job_contexts_ := [{ addr := 101 }],
    breakpoints_ := [(1, { backend_id := 1, is_internal := false }),
                     (2, { backend_id := 2, is_internal := true })],
    observers := [7, 9],
    next_breakpoint_id := 3,
    next_addr := 104,
    trace := [] }

/-- The user breakpoint of `demoSystem`. -/
def demoUserBreakpoint : BreakpointImpl := { backend_id := 1, is_internal := false }

/-- The internal breakpoint of `demoSystem`. -/
def demoInternalBreakpoint : BreakpointImpl := { backend_id := 2, is_internal := true }

/-- The registry and the history of a session agree with the id counter: every
key lies below the counter, every breakpoint is stored under its own id, no key
occurs twice, and the ids handed out so far are increasing and below the counter. -/
def SessionRun.idsFresh (r : SessionRun) : Prop :=
  r.state.counterAhead
    ∧ (∀ kv ∈ r.state.breakpoints_, kv.2.backend_id = kv.1)
    ∧ (r.state.breakpoints_.map Prod.fst).Nodup
    ∧ (∀ b ∈ r.created, b.backend_id < r.state.next_breakpoint_id)
    ∧ r.created.Pairwise (fun a b => a.backend_id < b.backend_id)

/-- What the destructor is to send for one target: the process-destruction
callbacks of an attached process, each observer seeing the collections `before`,
followed by the WillDestroyTarget callbacks, each observer seeing `after`. -/
def teardownBlock (observers : List Nat) (target : TargetImpl) (before after : SystemData) :
    List Event :=
  (match target.process with
    | none => []
    | some process =>
      observers.map (fun o => Event.notify o (Notification.GlobalWillDestroyProcess process) before))
  ++ observers.map (fun o => Event.notify o (Notification.WillDestroyTarget target.addr) after)

/-- What one forced detach is to send for a target: the process-destruction
callbacks of its process, once per observer, and nothing when it has no process. -/
def detachBlock (observers : List Nat) (target : TargetImpl) (seen : SystemData) : List Event :=
  match target.process with
  | none => []
  | some process =>
    observers.map (fun o => Event.notify o (Notification.GlobalWillDestroyProcess process) seen)

/-- The target once it is detached: the same object without a process. -/
def TargetImpl.detached (target : TargetImpl) : TargetImpl :=
  { target with process := none }

/-! ## Thread controllers (`garnet/bin/zxdb/client/thread_controller.h`) -/

/-- Modelled from the spec: the class AddressRange (common/address_range.h) is not
part of thread_controller.h. The spec only speaks of an "addressRange" that is
"required for that mode only": a range is a pair of addresses, and the range a
ContinueOp holds when none is given is the empty range at address 0. -/
structure AddressRange where
  begin_ : Nat := 0
  end_ : Nat := 0
  deriving DecidableEq, Repr

/-- A range with no address in it. -/
def AddressRange.empty (range : AddressRange) : Prop := range.end_ ≤ range.begin_

/-- Embeds `ThreadController::StopOp`. -/
inductive StopOp where
  | kContinue
  | kStop
  deriving DecidableEq, Repr

/-- Embeds `ThreadController::ContinueOp`, with its member initialisers. -/
structure ContinueOp where
  how : How := How.kContinue
  range : AddressRange := {}
  deriving DecidableEq, Repr

/-- Embeds `ContinueOp::Continue`. -/
def ContinueOp.Continue : ContinueOp := {}

/-- Embeds `ContinueOp::StepInstruction`. -/
def ContinueOp.StepInstruction : ContinueOp :=
  let result : ContinueOp := {}
  { result with how := How.kStepInstruction }

/-- Embeds `ContinueOp::StepInRange`. -/
def ContinueOp.StepInRange (range : AddressRange) : ContinueOp :=
  let result : ContinueOp := {}
  let result := { result with how := How.kStepInRange }
  { result with range := range }

/-- Embeds the abstract class `ThreadController`: the two policy functions a
controller provides. The stop type is the numeric value of
`debug_ipc::NotifyException::Type`. -/
structure ThreadController where
  GetContinueOp : ContinueOp
  OnThreadStop : Nat → List BreakpointImpl → StopOp

/-- What a thread does about one stop: the aggregate vote, the continue-op it is
resumed with (when it is resumed and a controller is there to give one), and the
controllers that stay on its stack. -/
structure StopOutcome where
  decision : StopOp
  resume_with : Option ContinueOp
  controllers : List ThreadController

/-- Modelled from the spec: the thread's handling of a stop (thread_impl.cc) is not
part of thread_controller.h. The spec: "evaluate every active controller's
OnThreadStop; if any returns kStop, the aggregate is kStop (stop wins over
continue, regardless of stack order) and all controllers that voted kStop are
then removed; if all return kContinue, the thread is resumed using the
continue-op of the top-of-stack controller only". The stack is a list whose head
is the top (the controller pushed last). -/
def Thread.OnStop (controllers : List ThreadController) (stop_type : Nat)
    (hit_breakpoints : List BreakpointImpl) : StopOutcome :=
  let votes := controllers.map (fun c => (c, c.OnThreadStop stop_type hit_breakpoints))
  if votes.any (fun cv => cv.2 == StopOp.kStop) then
    { decision := StopOp.kStop,
      resume_with := none,
      controllers := (votes.filter (fun cv => cv.2 != StopOp.kStop)).map (fun cv => cv.1) }
  else
    { decision := StopOp.kContinue,
      resume_with := controllers.head?.map (fun c => c.GetContinueOp),
      controllers := controllers }

/-- A controller that steps by instruction and always votes to continue. -/
def demoStepper : ThreadController :=
  { GetContinueOp := ContinueOp.StepInstruction, OnThreadStop := fun _ _ => StopOp.kContinue }

/-- A controller that runs freely and votes to stop when a breakpoint was hit. -/
def demoUntil : ThreadController :=
  { GetContinueOp := ContinueOp.Continue,
    OnThreadStop := fun _ hits => if hits.isEmpty then StopOp.kContinue else StopOp.kStop }

/-! ## Member and base-class resolution (`garnet/bin/zxdb/expr/resolve_collection.h`)

The header declares the resolution functions; their bodies and the symbol
classes they read are in files of their own. -/

mutual
/-- Modelled from the spec: the symbol classes Type and Collection (symbols/type.h,
symbols/collection.h) are not part of resolve_collection.h. A type has a byte
size; a collection (class, struct or union) also has its named fields and its
direct base classes, each at a byte offset. -/
inductive SymType where
  | base_type (name : String) (byte_size : Nat)
  | pointer_to (pointee : SymType)
  | collection (name : String) (byte_size : Nat) (data_members : DataMemberList)
      (inherited_from : InheritedFromList)
  deriving DecidableEq, Repr
/-- The fields a collection declares itself, in declaration order. -/
inductive DataMemberList where
  | nil
  | cons (name : String) (member_location : Nat) (type : SymType) (rest : DataMemberList)
  deriving DecidableEq, Repr
/-- The direct base classes of a collection, in declaration order. -/
inductive InheritedFromList where
  | nil
  | cons (from_ : SymType) (offset : Nat) (rest : InheritedFromList)
  deriving DecidableEq, Repr
end

/-- Modelled from the spec: the class DataMember (symbols/data_member.h) is not part
of resolve_collection.h; it describes "a named field's byte offset within a
collection type", and the field has a type. -/
structure DataMember where
  name : String
  member_location : Nat
  type : SymType
  deriving DecidableEq, Repr

/-- The members of `InheritedFrom` (`symbols/inherited_from.cc`): the base class and
its byte offset within the derived class. -/
structure InheritedFrom where
  from_ : SymType
  offset_ : Nat
  deriving DecidableEq, Repr

/-- Embeds `InheritedFrom::InheritedFrom`: both arguments are stored as they come. -/
def InheritedFrom.construct (from_ : SymType) (offset : Nat) : InheritedFrom :=
  { from_ := from_, offset_ := offset }

/-- The size in bytes of a value of the type; a pointer takes 8 bytes. -/
def SymType.byte_size : SymType → Nat
  | SymType.base_type _ byte_size => byte_size
  | SymType.pointer_to _ => 8
  | SymType.collection _ byte_size _ _ => byte_size

/-- The fields as a list of `DataMember`. -/
def DataMemberList.toList : DataMemberList → List DataMember
  | DataMemberList.nil => []
  | DataMemberList.cons name member_location type rest =>
    { name := name, member_location := member_location, type := type } :: rest.toList

/-- The direct bases as a list of `InheritedFrom`. -/
def InheritedFromList.toList : InheritedFromList → List InheritedFrom
  | InheritedFromList.nil => []
  | InheritedFromList.cons from_ offset rest =>
    InheritedFrom.construct from_ offset :: rest.toList

/-- Modelled from the spec: the class ExprValue (expr/expr_value.h) is not part of
resolve_collection.h; it is "an immutable typed value (type metadata + raw bytes)". -/
structure ExprValue where
  type : SymType
  data : List Nat
  deriving DecidableEq, Repr

/-- The error kinds of the design ("not-found", "remote failure", "malformed input");
an invariant violation is fatal and never comes back as an error value. -/
inductive ErrKind where
  | notFound
  | remoteFailure
  | malformedInput
  deriving DecidableEq, Repr

/-- Modelled from the spec: the class Err (common/err.h) is not part of
resolve_collection.h. The spec lists the failures of resolution, "each distinct":
"member not found on type or any base", "member is null/unavailable metadata",
"base class is not a direct base", "memory read failure". -/
inductive Err where
  | memberNotFound (member_name : String)
  | nullMember
  | notDirectBase
  | memoryRead (address : Nat) (size : Nat)
  deriving DecidableEq, Repr

/-- Modelled from the spec: the kind of each failure. A missing member name is a
"not-found" result and "passing a null member descriptor fails with a not-found
error"; a "base class not direct" is "malformed input"; "memory read fails" is a
"remote failure". -/
def Err.kind : Err → ErrKind
  | Err.memberNotFound _ => ErrKind.notFound
  | Err.nullMember => ErrKind.notFound
  | Err.notDirectBase => ErrKind.malformedInput
  | Err.memoryRead _ _ => ErrKind.remoteFailure

/-- The byte range of `size` bytes at `offset` within the bytes of a value. -/
def sliceBytes (data : List Nat) (offset size : Nat) : List Nat :=
  (data.drop offset).take size

/-- Modelled from the spec: the body of ResolveMember(base, member, out)
(resolve_collection.cc) is not part of resolve_collection.h. The spec: "compute the
child ExprValue by slicing the byte range at the member's offset within the
already-resident bytes", the width being that of the type of the member, and "a
null DataMember argument is itself a failure". -/
def ResolveMember (base : ExprValue) (member : Option DataMember) : Except Err ExprValue :=
  match member with
  | none => Except.error Err.nullMember
  | some m =>
    Except.ok { type := m.type, data := sliceBytes base.data m.member_location m.type.byte_size }

/-- The first field called `name` among the fields a collection declares itself. -/
def findDataMember (members : List DataMember) (name : String) : Option DataMember :=
  members.find? (fun m => m.name == name)

mutual
/-- Modelled from the spec: the search behind ResolveMember by name
(resolve_collection.cc) is not part of resolve_collection.h. The spec: "name-based
lookup additionally searches base classes (depth-first)": the fields of the type
itself come first, then each direct base with all that it inherits, in
declaration order; the result is the field and the byte offset of the class
that declares it. -/
def SymType.FindMember : SymType → String → Nat → Option (DataMember × Nat)
  | SymType.collection _ _ members bases, name, offset =>
    match findDataMember members.toList name with
    | some m => some (m, offset)
    | none => bases.FindMember name offset
  | SymType.base_type _ _, _, _ => none
  | SymType.pointer_to _, _, _ => none
/-- The search of `SymType.FindMember` through a list of direct bases. -/
def InheritedFromList.FindMember :
    InheritedFromList → String → Nat → Option (DataMember × Nat)
  | InheritedFromList.nil, _, _ => none
  | InheritedFromList.cons from_ offset_ rest, name, offset =>
    match from_.FindMember name (offset + offset_) with
    | some r => some r
    | none => rest.FindMember name offset
end

mutual
/-- The type, or a class it inherits from at any depth, declares a field called `name`. -/
def SymType.declares : SymType → String → Bool
  | SymType.collection _ _ members bases, name =>
    (members.toList.any (fun m => m.name == name)) || bases.declares name
  | SymType.base_type _ _, _ => false
  | SymType.pointer_to _, _ => false
/-- One of the bases, or a class it inherits from, declares a field called `name`. -/
def InheritedFromList.declares : InheritedFromList → String → Bool
  | InheritedFromList.nil, _ => false
  | InheritedFromList.cons from_ _ rest, name => from_.declares name || rest.declares name
end

/-- Modelled from the spec: the body of ResolveMember(base, member_name, out)
(resolve_collection.cc) is not part of resolve_collection.h. The spec: the lookup
by name "fails with a not-found error if absent"; a field that is found is sliced
out of the bytes at the offset of its class plus its own offset. -/
def ResolveMemberByName (base : ExprValue) (member_name : String) : Except Err ExprValue :=
  match base.type.FindMember member_name 0 with
  | none => Except.error (Err.memberNotFound member_name)
  | some (m, offset) =>
    Except.ok { type := m.type,
                data := sliceBytes base.data (offset + m.member_location) m.type.byte_size }

/-- The direct base classes of a type; a type that is not a collection has none. -/
def SymType.inherited_from : SymType → List InheritedFrom
  | SymType.collection _ _ _ bases => bases.toList
  | SymType.base_type _ _ => []
  | SymType.pointer_to _ => []

/-- Modelled from the spec: the body of ResolveInherited (resolve_collection.cc) is
not part of resolve_collection.h. The spec: the projection "requires the base to
be a direct base of the value's static type", and "base class is not a direct
base" is an error "reported back to the caller rather than silently defaulted";
the value of a direct base is the byte range of the size of the base at its
offset. -/
def ResolveInherited (value : ExprValue) (from_ : InheritedFrom) : Except Err ExprValue :=
  if from_ ∈ value.type.inherited_from then
    Except.ok { type := from_.from_,
                data := sliceBytes value.data from_.offset_ from_.from_.byte_size }
  else Except.error Err.notDirectBase

/-- A request to read `size` bytes of the memory of the debugged process at `address`. -/
structure MemoryRead where
  address : Nat
  size : Nat
  deriving DecidableEq, Repr

/-- What an asynchronous resolution has done once it is complete: the reads it
asked of the data provider and the calls it made to its callback, in order. -/
structure AsyncOutcome where
  reads : List MemoryRead
  callbacks : List (Except Err ExprValue)

/-- The address held in the bytes of a pointer value (little-endian). -/
def pointerValue : List Nat → Nat
  | [] => 0
  | b :: rest => b + 256 * pointerValue rest

/-- Modelled from the spec: the body of ResolveMemberByPointer (resolve_collection.cc)
and the data provider of ExprEvalContext are not part of resolve_collection.h. The
spec: "issue exactly one memory read sized to the target member's byte width at
pointerValue + memberOffset, then deliver the resulting ExprValue via callback";
failures "are delivered via the same callback signature used for success, tagged
with an error instead of a value". `memory` answers the read, for an evaluation
context that is still there when the answer comes; a null member fails through
the callback without a read. -/
def ResolveMemberByPointer (memory : MemoryRead → Except Err (List Nat)) (base_ptr : ExprValue)
    (member : Option DataMember) : AsyncOutcome :=
  match member with
  | none => { reads := [], callbacks := [Except.error Err.nullMember] }
  | some m =>
    let request : MemoryRead :=
      { address := pointerValue base_ptr.data + m.member_location, size := m.type.byte_size }
    match memory request with
    | Except.error err => { reads := [request], callbacks := [Except.error err] }
    | Except.ok bytes =>
      { reads := [request], callbacks := [Except.ok { type := m.type, data := bytes }] }

/-! ### Types and values used to exercise the resolution functions -/

/-- A four-byte integer. -/
def demoInt : SymType := SymType.base_type "int32_t" 4

/-- A class with one field, `g`, at offset 0. -/
def demoGrand : SymType :=
  SymType.collection "Grand" 4 (DataMemberList.cons "g" 0 demoInt DataMemberList.nil)
    InheritedFromList.nil

/-- A class that inherits from `Grand` at offset 0 and adds the field `b` at offset 4. -/
def demoBase : SymType :=
  SymType.collection "Base" 8 (DataMemberList.cons "b" 4 demoInt DataMemberList.nil)
    (InheritedFromList.cons demoGrand 0 InheritedFromList.nil)

/-- A class that inherits from `Base` at offset 4 and has the fields `tag` (one
byte, offset 0) and `d` (offset 12). -/
def demoDerived : SymType :=
  SymType.collection "Derived" 16
    (DataMemberList.cons "tag" 0 (SymType.base_type "char" 1)
      (DataMemberList.cons "d" 12 demoInt DataMemberList.nil))
    (InheritedFromList.cons demoBase 4 InheritedFromList.nil)

/-- A value of type `Derived`: sixteen bytes 10, 11, ..., 25. -/
def demoValue : ExprValue :=
  { type := demoDerived, data := [10, 11, 12, 13, 14, 15, 16, 17, 18, 19, 20, 21, 22, 23, 24, 25] }

/-- A pointer to a `Derived` at address 0x1000. -/
def demoPointer : ExprValue :=
  { type := SymType.pointer_to demoDerived, data := [0, 16, 0, 0, 0, 0, 0, 0] }

/-- A memory in which every byte holds the low byte of its address, mapped below 0x2000. -/
def demoMemory (request : MemoryRead) : Except Err (List Nat) :=
  if request.address + request.size ≤ 8192 then
    Except.ok ((List.range request.size).map (fun i => (request.address + i) % 256))
  else Except.error (Err.memoryRead request.address request.size)

/-! ## Disassembler (`garnet/bin/zxdb/client/disassembler.h`)

The header declares the class and documents its functions; their bodies and the
instruction decoder they call are elsewhere. -/

/-- Embeds `Disassembler::Options`, with its member initialisers. -/
structure Disassembler.Options where
  emit_addresses : Bool := false
  emit_bytes : Bool := false
  emit_undecodable : Bool := true
  deriving DecidableEq, Repr

/-- Modelled from the spec: the class ArchInfo and the decoder of the external
library are not part of disassembler.h. The spec treats "the instruction-decoding
backend" as an external collaborator bound at Init time: given the bytes at an
address it either decodes one instruction, telling its length and its text, or
fails; `instr_align` is the decode unit of the architecture. -/
structure ArchInfo where
  instr_align : Nat
  decode : List Nat → Nat → Option (Nat × String)

/-- One entry of the output buffer: the text of an instruction, with its address and
its raw bytes when the options ask for them. -/
structure OutputEntry where
  address : Option Nat
  bytes : Option (List Nat)
  text : String
  deriving DecidableEq, Repr

/-- The entry for `text` at `address`, with the prefixes the options select. -/
def OutputEntry.render (options : Disassembler.Options) (address : Nat) (bytes : List Nat)
    (text : String) : OutputEntry :=
  { address := if options.emit_addresses then some address else none,
    bytes := if options.emit_bytes then some bytes else none,
    text := text }

/-- Modelled from the spec: the body of Disassembler::DisassembleOne (disassembler.cc)
is not part of disassembler.h. The spec: it "decodes exactly one instruction and
appends its rendered text (with addresses/raw-bytes prefixes per options) to an
output sink; on an undecodable instruction, returns zero consumption and emits
nothing when emit_undecodable is false, or emits a placeholder "data" entry and
advances by one decode-unit when true". The decode unit is cut to what is left of
the buffer, which the header asks callers to keep large enough "for any
instruction". The result is the number of bytes consumed and the output buffer. -/
def Disassembler.DisassembleOne (arch : ArchInfo) (data : List Nat) (address : Nat)
    (options : Disassembler.Options) (out : List OutputEntry) : Nat × List OutputEntry :=
  match arch.decode data address with
  | some (consumed, text) =>
    (consumed, out ++ [OutputEntry.render options address (data.take consumed) text])
  | none =>
    if options.emit_undecodable then
      let consumed := min data.length arch.instr_align
      (consumed, out ++ [OutputEntry.render options address (data.take consumed) "data"])
    else (0, out)

/-- The results of `DisassembleMany`: the value it returns, what it stores in
`*instruction_count`, and the output buffer. -/
structure DisassembleManyResult where
  consumed : Nat
  instruction_count : Nat
  out : List OutputEntry
  deriving DecidableEq, Repr

/-- Modelled from the spec: the loop of Disassembler::DisassembleMany
(disassembler.cc) is not part of disassembler.h. The spec: it "repeats
DisassembleOne until either the buffer is exhausted or maxInstructions is reached
(0 = unbounded); always treats undecodable instructions as consuming data
(overriding options.emit_undecodable=false)". The first argument after the
parameters bounds the number of rounds; `none` says the bound was too small. -/
def Disassembler.DisassembleMany_loop (arch : ArchInfo) (data : List Nat) (start_address : Nat)
    (options : Disassembler.Options) (max_instructions : Nat) :
    Nat → Nat → Nat → List OutputEntry → Option DisassembleManyResult
  | 0, _, _, _ => none
  | fuel + 1, byte_offset, instruction_count, out =>
    if byte_offset < data.length
        ∧ (max_instructions = 0 ∨ instruction_count < max_instructions) then
      Disassembler.DisassembleMany_loop arch data start_address options max_instructions fuel
        (byte_offset
          + (Disassembler.DisassembleOne arch (data.drop byte_offset)
              (start_address + byte_offset) { options with emit_undecodable := true } out).1)
        (instruction_count + 1)
        (Disassembler.DisassembleOne arch (data.drop byte_offset)
          (start_address + byte_offset) { options with emit_undecodable := true } out).2
    else
      some { consumed := byte_offset, instruction_count := instruction_count, out := out }

/-- Modelled from the spec: Disassembler::DisassembleMany (disassembler.cc) is not
part of disassembler.h; it is the loop above from the start of the buffer, with
one round more than the buffer has bytes. -/
def Disassembler.DisassembleMany (arch : ArchInfo) (data : List Nat) (start_address : Nat)
    (options : Disassembler.Options) (max_instructions : Nat) (out : List OutputEntry) :
    Option DisassembleManyResult :=
  Disassembler.DisassembleMany_loop arch data start_address options max_instructions
    (data.length + 1) 0 0 out

/-- A toy decoder: 0x90 is `nop` (one byte), 0xb8 with four more bytes is `mov`
(five bytes), nothing else decodes. -/
def demoDecode (data : List Nat) (_address : Nat) : Option (Nat × String) :=
  match data with
  | 144 :: _ => some (1, "nop")
  | 184 :: _ :: _ :: _ :: _ :: _ => some (5, "mov")
  | _ => none

/-- A toy architecture with the toy decoder and a decode unit of one byte. -/
def demoArch : ArchInfo := { instr_align := 1, decode := demoDecode }

/-- Options that switch the placeholder for undecodable instructions off. -/
def demoQuiet : Disassembler.Options := { emit_undecodable := false }

/-- The invariant of `std::map`: the keys are strictly increasing, so no key occurs twice. -/
def StdMap.ordered {β : Type} (m : StdMap β) : Prop :=
  (m.map Prod.fst).Pairwise (fun a b => a < b)

instance StdMap.decidableOrdered {β : Type} (m : StdMap β) : Decidable (StdMap.ordered m) := by
  unfold StdMap.ordered
  infer_instance

end zxdb

/-! # wlan MLME dispatcher (`garnet/lib/wlan/mlme/dispatcher.cpp`)

The dispatcher hands packets to the MLME or answers them itself, and counts
them. What dispatcher.cpp takes from other files (constants, the FIDL helpers,
the frame accessors) is gathered in `Env`; the MLME and the device are objects
whose calls are recorded in `Dispatcher.trace`, in program order. -/

namespace wlan

/-- A `zx_status_t`; only `ZX_OK` and `ZX_ERR_NOT_SUPPORTED` are named in dispatcher.cpp. -/
abbrev zx_status_t := Int

/-- The status `ZX_OK` (zircon/errors.h: 0). -/
def ZX_OK : zx_status_t := 0

/-- The status `ZX_ERR_NOT_SUPPORTED` (zircon/errors.h: -2). -/
def ZX_ERR_NOT_SUPPORTED : zx_status_t := -2

/-- The ways in which the process can end instead of returning. -/
inductive Fatal where
  | debug_assert
  | zx_assert
  | null_mlme
  | out_of_bounds
  deriving DecidableEq, Repr

/-- Embeds `Packet::Peer`: the values dispatcher.cpp names, and `kDevice` for a peer
that none of its cases names. -/
inductive Peer where
  | kUnknown
  | kDevice
  | kWlan
  | kEthernet
  | kService
  deriving DecidableEq, Repr

/-- A packet: where it comes from and its bytes. -/
structure Packet where
  peer : Peer
  data : List Nat
  deriving DecidableEq, Repr

/-- Embeds `FrameType`: the three values dispatcher.cpp names, and `kExtension` for
what falls to the default case. -/
inductive FrameType where
  | kManagement
  | kControl
  | kData
  | kExtension
  deriving DecidableEq, Repr

/-- The fields of `fidl_message_header_t` that dispatcher.cpp reads. -/
structure fidl_message_header_t where
  txid : Nat
  flags : Nat
  ordinal : Nat
  deriving DecidableEq, Repr

/-- The message types that dispatcher.cpp deserialises with `MlmeMsg<T>::FromPacket`. -/
inductive MlmeMsgKind where
  | DeviceQueryRequest
  | MinstrelStatsRequest
  | ResetRequest
  | StartRequest
  | StopRequest
  | ScanRequest
  | JoinRequest
  | AuthenticateRequest
  | AuthenticateResponse
  | DeauthenticateRequest
  | AssociateRequest
  | AssociateResponse
  | EapolRequest
  | SetKeysRequest
  deriving DecidableEq, Repr

/-- A deserialised `MlmeMsg<T>`: its type and the packet it was read from. -/
structure MlmeMsg where
  kind : MlmeMsgKind
  packet : Packet
  deriving DecidableEq, Repr

/-- One group of packet counters of the dispatcher statistics. -/
structure PacketCounter where
  in_ : Nat
  out : Nat
  drop : Nat
  deriving DecidableEq, Repr

/-- The counters of `stats_` that dispatcher.cpp increments. -/
structure DispatcherStats where
  any_packet : PacketCounter
  mgmt_frame : PacketCounter
  ctrl_frame : PacketCounter
  data_frame : PacketCounter
  deriving DecidableEq, Repr

/-- The fields of `wlan_chan_list_t` that dispatcher.cpp reads; the C array
`channels` is the list of its elements. -/
structure wlan_chan_list_t where
  base_freq : Nat
  channels : List Nat
  deriving DecidableEq, Repr

/-- The fields of `wlan_band_info_t` that dispatcher.cpp reads; the C array
`basic_rates` is the list of its elements. -/
structure wlan_band_info_t where
  band_id : Nat
  ht_supported : Bool
  ht_caps : Nat
  vht_supported : Bool
  vht_caps : Nat
  basic_rates : List Nat
  supported_channels : wlan_chan_list_t
  deriving DecidableEq, Repr

/-- The fields of `wlan_info_t` that dispatcher.cpp reads; the C array `bands` is
the list of its elements, of which the first `num_bands` are in use. -/
structure wlan_info_t where
  mac_addr : List Nat
  mac_role : Nat
  caps : Nat
  num_bands : Nat
  bands : List wlan_band_info_t
  deriving DecidableEq, Repr

/-- Embeds `wlan_mlme::MacRole`. -/
inductive MacRole where
  | CLIENT
  | AP
  | MESH
  deriving DecidableEq, Repr

/-- The fields of `wlan_mlme::BandCapabilities` that dispatcher.cpp fills in. -/
structure BandCapabilities where
  band_id : Nat
  basic_rates : List Nat
  base_frequency : Nat
  channels : List Nat
  cap : Nat
  ht_cap : Option Nat
  vht_cap : Option Nat
  deriving DecidableEq, Repr

/-- The fields of `wlan_mlme::DeviceQueryConfirm` that dispatcher.cpp fills in;
`role` is `none` while it still has the value it was constructed with. -/
structure DeviceQueryConfirm where
  mac_addr : List Nat
  role : Option MacRole
  bands : List BandCapabilities
  deriving DecidableEq, Repr

/-- The messages that dispatcher.cpp sends with `SendServiceMsg`. -/
inductive ServiceMsg where
  | DeviceQueryConfirm (resp : DeviceQueryConfirm)
  | StatsQueryResponse (dispatcher_stats : DispatcherStats) (mlme_stats : Option Nat)
  | MinstrelListResponse (peers : List Nat)
  | MinstrelStatsResponse (peer : Option Nat)
  deriving DecidableEq, Repr

/-- What the dispatcher asks of the MLME and of the device. -/
inductive Event where
  | HandleFramePacket (packet : Packet)
  | HandleMlmeMsg (msg : MlmeMsg)
  | ResetMlmeStats
  | SendServiceMsg (msg : ServiceMsg) (ordinal : Nat) (txid : Option Nat)
  deriving DecidableEq, Repr

/-- The interface `Mlme`, as far as dispatcher.cpp calls it: the status each handler
returns, and the statistics (`none` when their tag is invalid). -/
structure Mlme where
  HandleFramePacket : Packet → zx_status_t
  HandleMlmeMsg : MlmeMsg → zx_status_t
  GetMlmeStats : Option Nat

/-- The interface `DeviceInterface`, as far as dispatcher.cpp calls it. -/
structure DeviceInterface where
  ifc_info : wlan_info_t
  GetMinstrelPeers : zx_status_t × List Nat
  GetMinstrelStats : List Nat → zx_status_t × Nat

/-- What dispatcher.cpp takes from other files: whether debug assertions are
compiled in, the FIDL helpers, the accessor of the frame type, the ordinals of the
messages and the constants and conversions of the driver protocol. -/
structure Env where
  debug_asserts : Bool
  FromBytes : List Nat → Option fidl_message_header_t
  FromPacket : MlmeMsgKind → Packet → zx_status_t
  frame_type : Packet → Option FrameType
  SendServiceMsg : ServiceMsg → Nat → Option Nat → zx_status_t
  MLMEDeviceQueryReqOrdinal : Nat
  MLMEDeviceQueryConfOrdinal : Nat
  MLMEStatsQueryReqOrdinal : Nat
  MLMEStatsQueryRespOrdinal : Nat
  MLMEListMinstrelPeersOrdinal : Nat
  MLMEGetMinstrelStatsOrdinal : Nat
  MLMEResetReqOrdinal : Nat
  MLMEStartReqOrdinal : Nat
  MLMEStopReqOrdinal : Nat
  MLMEStartScanOrdinal : Nat
  MLMEJoinReqOrdinal : Nat
  MLMEAuthenticateReqOrdinal : Nat
  MLMEAuthenticateRespOrdinal : Nat
  MLMEDeauthenticateReqOrdinal : Nat
  MLMEAssociateReqOrdinal : Nat
  MLMEAssociateRespOrdinal : Nat
  MLMEEapolReqOrdinal : Nat
  MLMESetKeysReqOrdinal : Nat
  WLAN_MAC_ROLE_CLIENT : Nat
  WLAN_MAC_ROLE_AP : Nat
  WLAN_MAC_ROLE_MESH : Nat
  BandToFidl : Nat → Nat
  CapabilityInfoToFidl : Nat → Nat
  HtCapabilitiesToFidl : Nat → Nat
  VhtCapabilitiesToFidl : Nat → Nat

/-- The ordinals that `HandleSvcPacket` compares the header with, in the order of
its comparisons. -/
def Env.handledOrdinals (env : Env) : List Nat :=
  [env.MLMEDeviceQueryReqOrdinal, env.MLMEStatsQueryReqOrdinal,
   env.MLMEListMinstrelPeersOrdinal, env.MLMEGetMinstrelStatsOrdinal,
   env.MLMEResetReqOrdinal, env.MLMEStartReqOrdinal, env.MLMEStopReqOrdinal,
   env.MLMEStartScanOrdinal, env.MLMEJoinReqOrdinal, env.MLMEAuthenticateReqOrdinal,
   env.MLMEAuthenticateRespOrdinal, env.MLMEDeauthenticateReqOrdinal,
   env.MLMEAssociateReqOrdinal, env.MLMEAssociateRespOrdinal, env.MLMEEapolReqOrdinal,
   env.MLMESetKeysReqOrdinal]

/-- The dispatcher: its device, its MLME (a pointer that may be null), its
statistics, and the calls it has made. -/
structure Dispatcher where
  device_ : DeviceInterface
  mlme_ : Option Mlme
  stats_ : DispatcherStats
  trace : List Event

/-- The macro `ZX_DEBUG_ASSERT`: it ends the process on a false condition when debug
assertions are compiled in, and does nothing otherwise. -/
def ZX_DEBUG_ASSERT (env : Env) (condition : Bool) : Except Fatal Unit :=
  if env.debug_asserts && !condition then Except.error Fatal.debug_assert else Except.ok ()

/-- Statistics with every counter at zero (`stats_.Reset()`). -/
def DispatcherStats.zero : DispatcherStats :=
  { any_packet := { in_ := 0, out := 0, drop := 0 },
    mgmt_frame := { in_ := 0, out := 0, drop := 0 },
    ctrl_frame := { in_ := 0, out := 0, drop := 0 },
    data_frame := { in_ := 0, out := 0, drop := 0 } }

/-- Embeds `Dispatcher::Dispatcher`: the MLME must not be null. -/
def Dispatcher.construct (device : DeviceInterface) (mlme : Option Mlme) :
    Except Fatal Dispatcher :=
  match mlme with
  | none => Except.error Fatal.zx_assert
  | some m =>
    Except.ok { device_ := device, mlme_ := some m, stats_ := DispatcherStats.zero, trace := [] }

/-- The call `mlme_->HandleFramePacket(packet)`; a null `mlme_` ends the process. -/
def Dispatcher.mlmeHandleFramePacket (d : Dispatcher) (packet : Packet) :
    Except Fatal zx_status_t × Dispatcher :=
  match d.mlme_ with
  | none => (Except.error Fatal.null_mlme, d)
  | some mlme =>
    (Except.ok (mlme.HandleFramePacket packet),
     { d with trace := d.trace ++ [Event.HandleFramePacket packet] })

/-- Embeds `Dispatcher::HandleMlmeMessage<Message>`. -/
def Dispatcher.HandleMlmeMessage (env : Env) (d : Dispatcher) (kind : MlmeMsgKind)
    (packet : Packet) : Except Fatal zx_status_t × Dispatcher :=
  let msg : MlmeMsg := { kind := kind, packet := packet }
  let status := env.FromPacket kind packet
  if status ≠ ZX_OK then (Except.ok status, d)
  else
    match d.mlme_ with
    | none => (Except.error Fatal.null_mlme, d)
    | some mlme =>
      (Except.ok (mlme.HandleMlmeMsg msg), { d with trace := d.trace ++ [Event.HandleMlmeMsg msg] })

/-- The loops over `basic_rates` and over `channels`: every element that is not 0 is
pushed back, in the order of the array. -/
def pushNonZero (acc : List Nat) : List Nat → List Nat
  | [] => acc
  | x :: rest => if x ≠ 0 then pushNonZero (acc ++ [x]) rest else pushNonZero acc rest

/-- The body of the loop over the bands in `HandleDeviceQueryRequest`. -/
def bandCapabilities (env : Env) (caps : Nat) (band_info : wlan_band_info_t) :
    BandCapabilities :=
  { band_id := env.BandToFidl band_info.band_id,
    basic_rates := pushNonZero [] band_info.basic_rates,
    base_frequency := band_info.supported_channels.base_freq,
    channels := pushNonZero [] band_info.supported_channels.channels,
    cap := env.CapabilityInfoToFidl caps,
    ht_cap := if band_info.ht_supported then some (env.HtCapabilitiesToFidl band_info.ht_caps)
      else none,
    vht_cap := if band_info.vht_supported then
        some (env.VhtCapabilitiesToFidl band_info.vht_caps)
      else none }

/-- The loop `for (band_idx = 0; band_idx < info.num_bands; band_idx++)` of
`HandleDeviceQueryRequest`, from `band_idx` on with `remaining` rounds to go;
reading past the end of the array `bands` has no defined result. -/
def bandsLoop (env : Env) (info : wlan_info_t) (band_idx : Nat) (bands : List BandCapabilities) :
    Nat → Except Fatal (List BandCapabilities)
  | 0 => Except.ok bands
  | remaining + 1 =>
    match info.bands[band_idx]? with
    | none => Except.error Fatal.out_of_bounds
    | some band_info =>
      bandsLoop env info (band_idx + 1) (bands ++ [bandCapabilities env info.caps band_info])
        remaining

/-- Embeds `Dispatcher::HandleDeviceQueryRequest`. -/
def Dispatcher.HandleDeviceQueryRequest (env : Env) (d : Dispatcher) :
    Except Fatal zx_status_t × Dispatcher :=
  let info := d.device_.ifc_info
  let role : Option MacRole :=
    if info.mac_role = env.WLAN_MAC_ROLE_CLIENT then some MacRole.CLIENT
    else if info.mac_role = env.WLAN_MAC_ROLE_AP then some MacRole.AP
    else if info.mac_role = env.WLAN_MAC_ROLE_MESH then some MacRole.MESH
    else none
  match bandsLoop env info 0 [] info.num_bands with
  | Except.error e => (Except.error e, d)
  | Except.ok bands =>
    let resp : DeviceQueryConfirm := { mac_addr := info.mac_addr, role := role, bands := bands }
    (Except.ok (env.SendServiceMsg (ServiceMsg.DeviceQueryConfirm resp)
        env.MLMEDeviceQueryConfOrdinal none),
     { d with trace := d.trace ++ [Event.SendServiceMsg (ServiceMsg.DeviceQueryConfirm resp)
        env.MLMEDeviceQueryConfOrdinal none] })

/-- Embeds `Dispatcher::HandleMlmeStats` together with `Dispatcher::GetStatsToFidl`. -/
def Dispatcher.HandleMlmeStats (env : Env) (d : Dispatcher) :
    Except Fatal zx_status_t × Dispatcher :=
  match d.mlme_ with
  | none => (Except.error Fatal.null_mlme, d)
  | some mlme =>
    let resp := ServiceMsg.StatsQueryResponse d.stats_ mlme.GetMlmeStats
    (Except.ok (env.SendServiceMsg resp env.MLMEStatsQueryRespOrdinal none),
     { d with trace := d.trace ++ [Event.SendServiceMsg resp env.MLMEStatsQueryRespOrdinal none] })

/-- Embeds `Dispatcher::HandleMinstrelPeerList`. -/
def Dispatcher.HandleMinstrelPeerList (env : Env) (d : Dispatcher) (txid : Nat) :
    Except Fatal zx_status_t × Dispatcher :=
  let peers := if d.device_.GetMinstrelPeers.1 ≠ ZX_OK then [] else d.device_.GetMinstrelPeers.2
  let resp := ServiceMsg.MinstrelListResponse peers
  (Except.ok (env.SendServiceMsg resp env.MLMEListMinstrelPeersOrdinal (some txid)),
   { d with trace := d.trace
      ++ [Event.SendServiceMsg resp env.MLMEListMinstrelPeersOrdinal (some txid)] })

/-- Embeds `Dispatcher::HandleMinstrelTxStats`; the address of the peer is taken
from the bytes of the request. -/
def Dispatcher.HandleMinstrelTxStats (env : Env) (d : Dispatcher) (packet : Packet)
    (txid : Nat) : Except Fatal zx_status_t × Dispatcher :=
  let status := env.FromPacket MlmeMsgKind.MinstrelStatsRequest packet
  if status ≠ ZX_OK then (Except.ok status, d)
  else
    let stats := d.device_.GetMinstrelStats packet.data
    let resp := ServiceMsg.MinstrelStatsResponse (if stats.1 = ZX_OK then some stats.2 else none)
    (Except.ok (env.SendServiceMsg resp env.MLMEGetMinstrelStatsOrdinal (some txid)),
     { d with trace := d.trace
        ++ [Event.SendServiceMsg resp env.MLMEGetMinstrelStatsOrdinal (some txid)] })

/-- Embeds `Dispatcher::HandleSvcPacket`: the comparisons of the ordinal, in the order
of the source. -/
def Dispatcher.HandleSvcPacket (env : Env) (d : Dispatcher) (packet : Packet) :
    Except Fatal zx_status_t × Dispatcher :=
  match env.FromBytes packet.data with
  | none => (Except.ok ZX_OK, d)
  | some hdr =>
    if hdr.ordinal = env.MLMEDeviceQueryReqOrdinal then
      if env.FromPacket MlmeMsgKind.DeviceQueryRequest packet ≠ ZX_OK then
        (Except.ok (env.FromPacket MlmeMsgKind.DeviceQueryRequest packet), d)
      else d.HandleDeviceQueryRequest env
    else if hdr.ordinal = env.MLMEStatsQueryReqOrdinal then d.HandleMlmeStats env
    else if hdr.ordinal = env.MLMEListMinstrelPeersOrdinal then
      d.HandleMinstrelPeerList env hdr.txid
    else if hdr.ordinal = env.MLMEGetMinstrelStatsOrdinal then
      d.HandleMinstrelTxStats env packet hdr.txid
    else if hdr.ordinal = env.MLMEResetReqOrdinal then
      match d.HandleMlmeMessage env MlmeMsgKind.ResetRequest packet with
      | (Except.error e, d1) => (Except.error e, d1)
      | (Except.ok _, d1) => (Except.ok ZX_OK, d1)
    else if hdr.ordinal = env.MLMEStartReqOrdinal then
      d.HandleMlmeMessage env MlmeMsgKind.StartRequest packet
    else if hdr.ordinal = env.MLMEStopReqOrdinal then
      d.HandleMlmeMessage env MlmeMsgKind.StopRequest packet
    else if hdr.ordinal = env.MLMEStartScanOrdinal then
      d.HandleMlmeMessage env MlmeMsgKind.ScanRequest packet
    else if hdr.ordinal = env.MLMEJoinReqOrdinal then
      d.HandleMlmeMessage env MlmeMsgKind.JoinRequest packet
    else if hdr.ordinal = env.MLMEAuthenticateReqOrdinal then
      d.HandleMlmeMessage env MlmeMsgKind.AuthenticateRequest packet
    else if hdr.ordinal = env.MLMEAuthenticateRespOrdinal then
      d.HandleMlmeMessage env MlmeMsgKind.AuthenticateResponse packet
    else if hdr.ordinal = env.MLMEDeauthenticateReqOrdinal then
      d.HandleMlmeMessage env MlmeMsgKind.DeauthenticateRequest packet
    else if hdr.ordinal = env.MLMEAssociateReqOrdinal then
      d.HandleMlmeMessage env MlmeMsgKind.AssociateRequest packet
    else if hdr.ordinal = env.MLMEAssociateRespOrdinal then
      d.HandleMlmeMessage env MlmeMsgKind.AssociateResponse packet
    else if hdr.ordinal = env.MLMEEapolReqOrdinal then
      d.HandleMlmeMessage env MlmeMsgKind.EapolRequest packet
    else if hdr.ordinal = env.MLMESetKeysReqOrdinal then
      d.HandleMlmeMessage env MlmeMsgKind.SetKeysRequest packet
    else (Except.ok ZX_ERR_NOT_SUPPORTED, d)

/-- The macro `WLAN_STATS_INC(any_packet.in)`. -/
def Dispatcher.incAnyIn (d : Dispatcher) : Dispatcher :=
  { d with stats_ := { d.stats_ with
      any_packet := { d.stats_.any_packet with in_ := d.stats_.any_packet.in_ + 1 } } }

/-- The macro `WLAN_STATS_INC(any_packet.drop)`. -/
def Dispatcher.incAnyDrop (d : Dispatcher) : Dispatcher :=
  { d with stats_ := { d.stats_ with
      any_packet := { d.stats_.any_packet with drop := d.stats_.any_packet.drop + 1 } } }

/-- The macro `WLAN_STATS_INC(any_packet.out)`. -/
def Dispatcher.incAnyOut (d : Dispatcher) : Dispatcher :=
  { d with stats_ := { d.stats_ with
      any_packet := { d.stats_.any_packet with out := d.stats_.any_packet.out + 1 } } }

/-- The switch on the frame type in `HandlePacket`: one of the three frame counters,
or none, is incremented. -/
def Dispatcher.incFrameIn (d : Dispatcher) (type : FrameType) : Dispatcher :=
  match type with
  | FrameType.kManagement =>
    { d with stats_ := { d.stats_ with
        mgmt_frame := { d.stats_.mgmt_frame with in_ := d.stats_.mgmt_frame.in_ + 1 } } }
  | FrameType.kControl =>
    { d with stats_ := { d.stats_ with
        ctrl_frame := { d.stats_.ctrl_frame with in_ := d.stats_.ctrl_frame.in_ + 1 } } }
  | FrameType.kData =>
    { d with stats_ := { d.stats_ with
        data_frame := { d.stats_.data_frame with in_ := d.stats_.data_frame.in_ + 1 } } }
  | FrameType.kExtension => d

/-- Embeds `Dispatcher::HandlePacket`. -/
def Dispatcher.HandlePacket (env : Env) (d : Dispatcher) (packet : Packet) :
    Except Fatal zx_status_t × Dispatcher :=
  match ZX_DEBUG_ASSERT env (packet.peer != Peer.kUnknown) with
  | Except.error e => (Except.error e, d)
  | Except.ok _ =>
    let d1 := d.incAnyIn
    let service_msg := (packet.peer == Peer.kService)
    if d1.mlme_.isNone && !service_msg then (Except.ok ZX_OK, d1.incAnyDrop)
    else
      let d2 := d1.incAnyOut
      match packet.peer with
      | Peer.kService => d2.HandleSvcPacket env packet
      | Peer.kEthernet => d2.mlmeHandleFramePacket packet
      | Peer.kWlan =>
        match env.frame_type packet with
        | none => (Except.ok ZX_OK, d2)
        | some type => (d2.incFrameIn type).mlmeHandleFramePacket packet
      | _ => (Except.ok ZX_OK, d2)

/-- Embeds `Dispatcher::ResetStats`. -/
def Dispatcher.ResetStats (d : Dispatcher) : Dispatcher :=
  let d1 := { d with stats_ := DispatcherStats.zero }
  match d1.mlme_ with
  | none => d1
  | some _ => { d1 with trace := d1.trace ++ [Event.ResetMlmeStats] }

/-- The calls `HandlePacket(p)` for the packets of a list, one after the other; after
a fatal failure nothing runs any more. The result is whether the process is still
alive, and the dispatcher. -/
def Dispatcher.HandlePackets (env : Env) (d : Dispatcher) :
    List Packet → Except Fatal Unit × Dispatcher
  | [] => (Except.ok (), d)
  | packet :: rest =>
    match d.HandlePacket env packet with
    | (Except.error e, d1) => (Except.error e, d1)
    | (Except.ok _, d1) => Dispatcher.HandlePackets env d1 rest

/-! ## A toy environment used to exercise the dispatcher -/

/-- A toy environment: debug assertions on, a header of three bytes (txid, flags,
ordinal), messages that always deserialise, the frame type in the first byte of
the frame, sends that always succeed, and the ordinals 1 to 18. -/
def demoEnv : Env :=
  { debug_asserts := true,
    FromBytes := fun data =>
      match data with
      | txid :: flags :: ordinal :: _ => some { txid := txid, flags := flags, ordinal := ordinal }
      | _ => none,
    FromPacket := fun _ _ => ZX_OK,
    frame_type := fun packet =>
      match packet.data with
      | [] => none
      | 0 :: _ => some FrameType.kManagement
      | 1 :: _ => some FrameType.kControl
      | 2 :: _ => some FrameType.kData
      | _ :: _ => some FrameType.kExtension,
    SendServiceMsg := fun _ _ _ => ZX_OK,
    MLMEDeviceQueryReqOrdinal := 1,
    MLMEDeviceQueryConfOrdinal := 2,
    MLMEStatsQueryReqOrdinal := 3,
    MLMEStatsQueryRespOrdinal := 4,
    MLMEListMinstrelPeersOrdinal := 5,
    MLMEGetMinstrelStatsOrdinal := 6,
    MLMEResetReqOrdinal := 7,
    MLMEStartReqOrdinal := 8,
    MLMEStopReqOrdinal := 9,
    MLMEStartScanOrdinal := 10,
    MLMEJoinReqOrdinal := 11,
    MLMEAuthenticateReqOrdinal := 12,
    MLMEAuthenticateRespOrdinal := 13,
    MLMEDeauthenticateReqOrdinal := 14,
    MLMEAssociateReqOrdinal := 15,
    MLMEAssociateRespOrdinal := 16,
    MLMEEapolReqOrdinal := 17,
    MLMESetKeysReqOrdinal := 18,
    WLAN_MAC_ROLE_CLIENT := 1,
    WLAN_MAC_ROLE_AP := 2,
    WLAN_MAC_ROLE_MESH := 4,
    BandToFidl := fun band_id => band_id,
    CapabilityInfoToFidl := fun caps => caps,
    HtCapabilitiesToFidl := fun caps => caps,
    VhtCapabilitiesToFidl := fun caps => caps }

/-- A device with two bands in use, in an array of two. -/
def demoDevice : DeviceInterface :=
  { ifc_info :=
      { mac_addr := [1, 2, 3, 4, 5, 6], mac_role := 1, caps := 0, num_bands := 2,
        bands :=
          [{ band_id := 0, ht_supported := true, ht_caps := 7, vht_supported := false,
             vht_caps := 0, basic_rates := [2, 0, 4, 0, 11, 0],
             supported_channels := { base_freq := 2407, channels := [1, 0, 6, 11, 0, 0] } },
           { band_id := 1, ht_supported := false, ht_caps := 0, vht_supported := false,
             vht_caps := 0, basic_rates := [0, 12, 24],
             supported_channels := { base_freq := 5000, channels := [0, 0, 36, 40] } }] },
    GetMinstrelPeers := (ZX_OK, []),
    GetMinstrelStats := fun _ => (ZX_OK, 0) }

/-- An MLME that accepts everything. -/
def demoMlme : Mlme :=
  { HandleFramePacket := fun _ => ZX_OK, HandleMlmeMsg := fun _ => ZX_OK, GetMlmeStats := none }

/-- A dispatcher with an MLME. -/
def demoDispatcher : Dispatcher :=
  { device_ := demoDevice, mlme_ := some demoMlme, stats_ := DispatcherStats.zero, trace := [] }

/-- A dispatcher whose MLME pointer is null. -/
def demoIdle : Dispatcher :=
  { device_ := demoDevice, mlme_ := none, stats_ := DispatcherStats.zero, trace := [] }

end wlan

namespace zxdb

/-! ## Theorems -/

/-! ### Ordered map -/

theorem StdMap.assign_fresh {β : Type} (m : StdMap β) (k : Nat) (v : β)
    (h : ∀ kv ∈ m, kv.1 < k) : StdMap.assign m k v = m ++ [(k, v)] := by
  induction m with
  | nil => rfl
  | cons hd tl ih =>
    obtain ⟨k', v'⟩ := hd
    have hk : k' < k := h (k', v') (List.mem_cons_self _ _)
    have htl : ∀ kv ∈ tl, kv.1 < k := fun kv hkv => h kv (List.mem_cons_of_mem _ hkv)
    simp only [StdMap.assign, List.cons_append]
    rw [if_neg (by omega), if_neg (by omega), ih htl]

theorem StdMap.find_assign_self {β : Type} (m : StdMap β) (k : Nat) (v : β) :
    StdMap.find (StdMap.assign m k v) k = some v := by
  induction m with
  | nil => simp [StdMap.assign, StdMap.find]
  | cons hd tl ih =>
    obtain ⟨k', v'⟩ := hd
    simp only [StdMap.assign]
    split_ifs with h1 h2
    · simp [StdMap.find]
    · simp [StdMap.find]
    · simp only [StdMap.find]
      rw [if_neg (fun h => h2 h.symm)]
      exact ih

/-! ### Breakpoint creation -/

theorem CreateNewBreakpoint_breakpoints (s : SystemImpl) :
    s.CreateNewBreakpoint.2.breakpoints_ =
      StdMap.assign s.breakpoints_ s.next_breakpoint_id
        { backend_id := s.next_breakpoint_id, is_internal := false } := rfl

theorem CreateNewInternalBreakpoint_breakpoints (s : SystemImpl) :
    s.CreateNewInternalBreakpoint.2.breakpoints_ =
      StdMap.assign s.breakpoints_ s.next_breakpoint_id
        { backend_id := s.next_breakpoint_id, is_internal := true } := rfl

theorem CreateNewBreakpoint_counter (s : SystemImpl) :
    s.CreateNewBreakpoint.2.next_breakpoint_id = s.next_breakpoint_id + 1 := rfl

theorem CreateNewInternalBreakpoint_counter (s : SystemImpl) :
    s.CreateNewInternalBreakpoint.2.next_breakpoint_id = s.next_breakpoint_id + 1 := rfl

theorem counterAhead_assign (s s1 : SystemImpl) (b : BreakpointImpl) (h : s.counterAhead)
    (hb : s1.breakpoints_ = StdMap.assign s.breakpoints_ s.next_breakpoint_id b)
    (hc : s1.next_breakpoint_id = s.next_breakpoint_id + 1) : s1.counterAhead := by
  intro kv hkv
  rw [hb, StdMap.assign_fresh _ _ _ h] at hkv
  rw [hc]
  rcases List.mem_append.1 hkv with hm | hm
  · exact Nat.lt_succ_of_lt (h kv hm)
  · rw [List.mem_singleton] at hm
    rw [hm]
    exact Nat.lt_succ_self _

theorem GetBreakpoints_CreateNewBreakpoint (s : SystemImpl) (h : s.counterAhead) :
    s.CreateNewBreakpoint.2.GetBreakpoints =
      s.GetBreakpoints ++ [s.CreateNewBreakpoint.1] := by
  unfold SystemImpl.GetBreakpoints
  rw [CreateNewBreakpoint_breakpoints, StdMap.assign_fresh _ _ _ h]
  simp [SystemImpl.CreateNewBreakpoint, BreakpointImpl.make]

theorem GetBreakpoints_CreateNewInternalBreakpoint (s : SystemImpl) (h : s.counterAhead) :
    s.CreateNewInternalBreakpoint.2.GetBreakpoints = s.GetBreakpoints := by
  unfold SystemImpl.GetBreakpoints
  rw [CreateNewInternalBreakpoint_breakpoints, StdMap.assign_fresh _ _ _ h]
  simp

theorem run_creates_length (ops : List Op) :
    ∀ r : SessionRun, r.status = Except.ok () → r.state.counterAhead →
      (∀ op ∈ ops, op = Op.CreateNewBreakpoint ∨ op = Op.CreateNewInternalBreakpoint) →
      (r.run ops).state.GetBreakpoints.length =
        r.state.GetBreakpoints.length + ops.count Op.CreateNewBreakpoint := by
  induction ops with
  | nil => intro r _ _ _; simp [SessionRun.run]
  | cons op rest ih =>
    intro r hok hinv hops
    have hrest : ∀ o ∈ rest, o = Op.CreateNewBreakpoint ∨ o = Op.CreateNewInternalBreakpoint :=
      fun o ho => hops o (List.mem_cons_of_mem _ ho)
    have hrun : r.run (op :: rest) = (r.step op).run rest := rfl
    rw [hrun]
    rcases hops op (List.mem_cons_self _ _) with h | h
    · subst h
      have hst : (r.step Op.CreateNewBreakpoint).state = r.state.CreateNewBreakpoint.2 := by
        simp [SessionRun.step, hok]
      have hok1 : (r.step Op.CreateNewBreakpoint).status = Except.ok () := by
        simp [SessionRun.step, hok]
      have hinv1 : (r.step Op.CreateNewBreakpoint).state.counterAhead := by
        rw [hst]
        exact counterAhead_assign r.state _ _ hinv (CreateNewBreakpoint_breakpoints _)
          (CreateNewBreakpoint_counter _)
      rw [ih _ hok1 hinv1 hrest, hst, GetBreakpoints_CreateNewBreakpoint _ hinv,
        List.length_append, List.length_singleton, List.count_cons_self]
      omega
    · subst h
      have hst : (r.step Op.CreateNewInternalBreakpoint).state =
          r.state.CreateNewInternalBreakpoint.2 := by
        simp [SessionRun.step, hok]
      have hok1 : (r.step Op.CreateNewInternalBreakpoint).status = Except.ok () := by
        simp [SessionRun.step, hok]
      have hinv1 : (r.step Op.CreateNewInternalBreakpoint).state.counterAhead := by
        rw [hst]
        exact counterAhead_assign r.state _ _ hinv (CreateNewInternalBreakpoint_breakpoints _)
          (CreateNewInternalBreakpoint_counter _)
      rw [ih _ hok1 hinv1 hrest, hst, GetBreakpoints_CreateNewInternalBreakpoint _ hinv,
        List.count_cons_of_ne (by decide)]

/-- C1: starting from a System with no breakpoints, after any interleaving of calls
to CreateNewInternalBreakpoint and CreateNewBreakpoint, GetBreakpoints returns as
many breakpoints as there were calls to CreateNewBreakpoint, and none of the
breakpoints it returns is internal. -/
theorem GetBreakpoints_after_creates (s : SystemImpl) (ops : List Op)
    (hempty : s.breakpoints_ = [])
    (hops : ∀ op ∈ ops, op = Op.CreateNewBreakpoint ∨ op = Op.CreateNewInternalBreakpoint) :
    ((SessionRun.start s).run ops).state.GetBreakpoints.length = ops.count Op.CreateNewBreakpoint
      ∧ ∀ b ∈ ((SessionRun.start s).run ops).state.GetBreakpoints, b.is_internal = false := by
  constructor
  · have hinv : (SessionRun.start s).state.counterAhead := by
      intro kv hkv
      simp [SessionRun.start, hempty] at hkv
    have h := run_creates_length ops (SessionRun.start s) rfl hinv hops
    rw [h]
    simp [SessionRun.start, SystemImpl.GetBreakpoints, hempty]
  · intro b hb
    simp only [SystemImpl.GetBreakpoints, List.mem_map, List.mem_filter] at hb
    obtain ⟨pair, ⟨_, hp⟩, rfl⟩ := hb
    simpa using hp

/-- Witness for C1: two internal and two user breakpoints, interleaved, on a fresh System. -/
theorem GetBreakpoints_after_creates_witness :
    ((SessionRun.start (SystemImpl.construct 1 100)).run
        [Op.CreateNewInternalBreakpoint, Op.CreateNewBreakpoint, Op.CreateNewInternalBreakpoint,
         Op.CreateNewBreakpoint]).state.GetBreakpoints.length = 2
      ∧ ∀ b ∈ ((SessionRun.start (SystemImpl.construct 1 100)).run
        [Op.CreateNewInternalBreakpoint, Op.CreateNewBreakpoint, Op.CreateNewInternalBreakpoint,
         Op.CreateNewBreakpoint]).state.GetBreakpoints, b.is_internal = false :=
  GetBreakpoints_after_creates (SystemImpl.construct 1 100)
    [Op.CreateNewInternalBreakpoint, Op.CreateNewBreakpoint, Op.CreateNewInternalBreakpoint,
     Op.CreateNewBreakpoint] rfl (by decide)

/-! ### Breakpoint deletion -/

theorem count_fanout (before : List Event) (observers : List Nat) (what : Notification)
    (seen : SystemData) (o : Nat) :
    ((before ++ observers.map (fun x => Event.notify x what seen)).drop before.length).count
        (Event.notify o what seen) = observers.count o := by
  rw [List.drop_left]
  have hinj : Function.Injective (fun x => Event.notify x what seen) := by
    intro x y hxy
    simpa using hxy
  exact List.count_map_of_injective observers _ hinj o

theorem DeleteBreakpoint_found (s : SystemImpl) (b found : BreakpointImpl)
    (h : StdMap.find s.breakpoints_ b.backend_id = some found) :
    s.DeleteBreakpoint b =
      (Except.ok (),
        { (if !found.is_internal then
            s.notifyObservers (Notification.WillDestroyBreakpoint b) else s) with
          breakpoints_ := StdMap.erase
            (if !found.is_internal then
              s.notifyObservers (Notification.WillDestroyBreakpoint b) else s).breakpoints_
            b.backend_id }) := by
  unfold SystemImpl.DeleteBreakpoint
  rw [h]

theorem DeleteBreakpoint_missing (s : SystemImpl) (b : BreakpointImpl)
    (h : StdMap.find s.breakpoints_ b.backend_id = none) :
    s.DeleteBreakpoint b = (Except.error Fatal.notreached, s) := by
  unfold SystemImpl.DeleteBreakpoint
  rw [h]
  rfl

theorem DeleteBreakpoint_frame (s : SystemImpl) (b : BreakpointImpl) :
    (s.DeleteBreakpoint b).2.targets_ = s.targets_
      ∧ (s.DeleteBreakpoint b).2.job_contexts_ = s.job_contexts_
      ∧ (s.DeleteBreakpoint b).2.observers = s.observers
      ∧ (s.DeleteBreakpoint b).2.next_breakpoint_id = s.next_breakpoint_id
      ∧ (s.DeleteBreakpoint b).2.next_addr = s.next_addr := by
  cases hf : StdMap.find s.breakpoints_ b.backend_id with
  | none => rw [DeleteBreakpoint_missing s b hf]; simp
  | some found =>
    rw [DeleteBreakpoint_found s b found hf]
    by_cases hi : found.is_internal = true
    · simp [hi]
    · simp [hi, SystemImpl.notifyObservers]

/-- C2: deleting a registered breakpoint b returns normally; when b is not internal
the call sends WillDestroyBreakpoint(b) once per entry of the observer list, in
list order and before the entry is erased (so an observer receives it as often
as it is registered: once), and nothing else; when b is internal the call sends
nothing at all. -/
theorem DeleteBreakpoint_notifications (s : SystemImpl) (b : BreakpointImpl)
    (hreg : StdMap.find s.breakpoints_ b.backend_id = some b) :
    (s.DeleteBreakpoint b).1 = Except.ok ()
      ∧ (b.is_internal = false →
          (s.DeleteBreakpoint b).2.trace = s.trace ++ s.observers.map
              (fun o => Event.notify o (Notification.WillDestroyBreakpoint b) s.toSystemData)
          ∧ ∀ o, ((s.DeleteBreakpoint b).2.trace.drop s.trace.length).count
              (Event.notify o (Notification.WillDestroyBreakpoint b) s.toSystemData)
                = s.observers.count o)
      ∧ (b.is_internal = true → (s.DeleteBreakpoint b).2.trace = s.trace) := by
  rw [DeleteBreakpoint_found s b b hreg]
  refine ⟨rfl, ?_, ?_⟩
  · intro hb
    have htr : ({ (if !b.is_internal then
          s.notifyObservers (Notification.WillDestroyBreakpoint b) else s) with
        breakpoints_ := StdMap.erase
          (if !b.is_internal then
            s.notifyObservers (Notification.WillDestroyBreakpoint b) else s).breakpoints_
          b.backend_id } : SystemImpl).trace
        = s.trace ++ s.observers.map
          (fun o => Event.notify o (Notification.WillDestroyBreakpoint b) s.toSystemData) := by
      simp [hb, SystemImpl.notifyObservers]
    refine ⟨htr, fun o => ?_⟩
    rw [htr]
    exact count_fanout s.trace s.observers _ _ o
  · intro hb
    simp [hb]

/-- Witness for C2: the user breakpoint of the demo System, with its two observers. -/
theorem DeleteBreakpoint_notifications_witness :
    StdMap.find demoSystem.breakpoints_ demoUserBreakpoint.backend_id = some demoUserBreakpoint
      ∧ (demoSystem.DeleteBreakpoint demoUserBreakpoint).1 = Except.ok ()
      ∧ (demoSystem.DeleteBreakpoint demoUserBreakpoint).2.trace =
          [Event.notify 7 (Notification.WillDestroyBreakpoint demoUserBreakpoint)
             demoSystem.toSystemData,
           Event.notify 9 (Notification.WillDestroyBreakpoint demoUserBreakpoint)
             demoSystem.toSystemData] :=
  ⟨by decide,
   (DeleteBreakpoint_notifications demoSystem demoUserBreakpoint (by decide)).1,
   ((DeleteBreakpoint_notifications demoSystem demoUserBreakpoint (by decide)).2.1 rfl).1⟩

/-- C3: CreateNewInternalBreakpoint stores the new breakpoint in the registry that
BreakpointImplForId reads, flagged internal, and sends nothing; CreateNewBreakpoint
stores the new breakpoint in the same registry, flagged not internal, and sends
DidCreateBreakpoint for it once per entry of the observer list, in list order, each
observer finding the breakpoint already registered when it is called. -/
theorem create_breakpoint_notifications (s : SystemImpl) :
    (s.CreateNewInternalBreakpoint.2.BreakpointImplForId
          s.CreateNewInternalBreakpoint.1.backend_id = some s.CreateNewInternalBreakpoint.1
      ∧ s.CreateNewInternalBreakpoint.1.is_internal = true
      ∧ s.CreateNewInternalBreakpoint.2.trace = s.trace)
    ∧ (s.CreateNewBreakpoint.2.BreakpointImplForId
          s.CreateNewBreakpoint.1.backend_id = some s.CreateNewBreakpoint.1
      ∧ s.CreateNewBreakpoint.1.is_internal = false
      ∧ ∃ seen : SystemData,
          s.CreateNewBreakpoint.2.trace = s.trace ++ s.observers.map
            (fun o => Event.notify o
              (Notification.DidCreateBreakpoint s.CreateNewBreakpoint.1) seen)
          ∧ StdMap.find seen.breakpoints_ s.CreateNewBreakpoint.1.backend_id
              = some s.CreateNewBreakpoint.1
          ∧ seen = s.CreateNewBreakpoint.2.toSystemData) := by
  refine ⟨⟨?_, rfl, rfl⟩, ?_, rfl, ?_⟩
  · exact StdMap.find_assign_self _ _ _
  · exact StdMap.find_assign_self _ _ _
  · exact ⟨_, rfl, StdMap.find_assign_self _ _ _, rfl⟩

/-- C5: when the id of the breakpoint is not a key of the registry, DeleteBreakpoint
ends in the fatal failure raised by FXL_NOTREACHED, not in a normal return, and
it has neither touched the System nor sent anything when it fails. -/
theorem DeleteBreakpoint_unknown_fatal (s : SystemImpl) (b : BreakpointImpl)
    (h : StdMap.find s.breakpoints_ b.backend_id = none) :
    (s.DeleteBreakpoint b).1 = Except.error Fatal.notreached
      ∧ (s.DeleteBreakpoint b).1 ≠ Except.ok ()
      ∧ (s.DeleteBreakpoint b).2 = s := by
  rw [DeleteBreakpoint_missing s b h]
  simp

/-- Witness for C5: a breakpoint with id 5 is not registered in the demo System. -/
theorem DeleteBreakpoint_unknown_fatal_witness :
    StdMap.find demoSystem.breakpoints_ 5 = none
      ∧ (demoSystem.DeleteBreakpoint { backend_id := 5, is_internal := false }).1
          = Except.error Fatal.notreached
      ∧ (demoSystem.DeleteBreakpoint { backend_id := 5, is_internal := false }).1 ≠ Except.ok ()
      ∧ (demoSystem.DeleteBreakpoint { backend_id := 5, is_internal := false }).2 = demoSystem :=
  ⟨by decide,
   DeleteBreakpoint_unknown_fatal demoSystem { backend_id := 5, is_internal := false }
     (by decide)⟩

/-! ### Process lookup -/

theorem ProcessImplFromKoid_scan_none (targets : List TargetImpl) (koid : Nat) :
    ProcessImplFromKoid_scan targets koid = none ↔
      ∀ t ∈ targets, ∀ p, t.process = some p → p.koid ≠ koid := by
  induction targets with
  | nil => simp [ProcessImplFromKoid_scan]
  | cons t rest ih =>
    unfold ProcessImplFromKoid_scan
    cases hp : t.process with
    | none =>
      simp only [List.mem_cons, forall_eq_or_imp, hp]
      rw [ih]
      simp
    | some p =>
      simp only [List.mem_cons, forall_eq_or_imp, hp]
      by_cases hk : p.koid = koid
      · simp [hk]
      · rw [if_neg hk, ih]
        simp [hk]

theorem ProcessImplFromKoid_scan_some (targets : List TargetImpl) (koid : Nat)
    (p : ProcessImpl) :
    ProcessImplFromKoid_scan targets koid = some p ↔
      ∃ pre t post, targets = pre ++ t :: post ∧ t.process = some p ∧ p.koid = koid
        ∧ ∀ t' ∈ pre, ∀ p', t'.process = some p' → p'.koid ≠ koid := by
  induction targets with
  | nil => simp [ProcessImplFromKoid_scan]
  | cons t rest ih =>
    have hskip : (∀ q, t.process = some q → q.koid ≠ koid) →
        ((∃ pre t0 post, t :: rest = pre ++ t0 :: post ∧ t0.process = some p ∧ p.koid = koid
            ∧ ∀ t' ∈ pre, ∀ p', t'.process = some p' → p'.koid ≠ koid) ↔
         (∃ pre t0 post, rest = pre ++ t0 :: post ∧ t0.process = some p ∧ p.koid = koid
            ∧ ∀ t' ∈ pre, ∀ p', t'.process = some p' → p'.koid ≠ koid)) := by
      intro hno
      constructor
      · rintro ⟨pre, t0, post, hsplit, hproc, hk, hpre⟩
        cases pre with
        | nil =>
          simp only [List.nil_append, List.cons.injEq] at hsplit
          obtain ⟨rfl, _⟩ := hsplit
          exact absurd hk (hno p hproc)
        | cons a pre' =>
          simp only [List.cons_append, List.cons.injEq] at hsplit
          obtain ⟨_, hrest⟩ := hsplit
          exact ⟨pre', t0, post, hrest, hproc, hk,
            fun t' ht' => hpre t' (List.mem_cons_of_mem _ ht')⟩
      · rintro ⟨pre, t0, post, hsplit, hproc, hk, hpre⟩
        refine ⟨t :: pre, t0, post, by rw [hsplit]; rfl, hproc, hk, ?_⟩
        intro t' ht'
        rcases List.mem_cons.1 ht' with rfl | hmem
        · exact hno
        · exact hpre t' hmem
    unfold ProcessImplFromKoid_scan
    cases hp : t.process with
    | none =>
      simp only
      rw [ih, hskip (by simp [hp])]
    | some q =>
      simp only
      by_cases hk : q.koid = koid
      · rw [if_pos hk]
        constructor
        · intro h
          obtain rfl : q = p := Option.some.inj h
          exact ⟨[], t, rest, rfl, hp, hk, by simp⟩
        · rintro ⟨pre, t0, post, hsplit, hproc, _, hpre⟩
          cases pre with
          | nil =>
            simp only [List.nil_append, List.cons.injEq] at hsplit
            obtain ⟨rfl, _⟩ := hsplit
            rw [hp] at hproc
            exact hproc
          | cons a pre' =>
            simp only [List.cons_append, List.cons.injEq] at hsplit
            obtain ⟨rfl, _⟩ := hsplit
            exact absurd hk (hpre _ (List.mem_cons_self _ _) q hp)
      · rw [if_neg hk, ih, hskip]
        intro q' hq'
        rw [hp] at hq'
        obtain rfl : q = q' := Option.some.inj hq'
        exact hk

/-- C6: ProcessFromKoid(k) returns none exactly when no target has an attached
process with koid k, and returns p exactly when p is the attached process, with
koid k, of a target before which, in list order, no target has an attached process
with koid k (targets with no process never stop the scan). -/
theorem ProcessFromKoid_first_match (s : SystemImpl) (koid : Nat) :
    (s.ProcessFromKoid koid = none ↔
        ∀ t ∈ s.targets_, ∀ p, t.process = some p → p.koid ≠ koid)
      ∧ ∀ p, (s.ProcessFromKoid koid = some p ↔
          ∃ pre t post, s.targets_ = pre ++ t :: post ∧ t.process = some p ∧ p.koid = koid
            ∧ ∀ t' ∈ pre, ∀ p', t'.process = some p' → p'.koid ≠ koid) :=
  ⟨ProcessImplFromKoid_scan_none s.targets_ koid,
   fun p => ProcessImplFromKoid_scan_some s.targets_ koid p⟩

/-! ### What the operations leave alone -/

theorem StdMap.erase_sublist {β : Type} (m : StdMap β) (k : Nat) :
    List.Sublist (StdMap.erase m k) m := by
  induction m with
  | nil => exact List.Sublist.refl _
  | cons hd tl ih =>
    obtain ⟨k', v'⟩ := hd
    simp only [StdMap.erase]
    split_ifs
    · exact List.sublist_cons_self _ _
    · exact List.Sublist.cons₂ _ ih

theorem ImplicitlyDetach_frame (s : SystemImpl) (i : Nat) :
    (s.ImplicitlyDetach i).breakpoints_ = s.breakpoints_
      ∧ (s.ImplicitlyDetach i).job_contexts_ = s.job_contexts_
      ∧ (s.ImplicitlyDetach i).observers = s.observers
      ∧ (s.ImplicitlyDetach i).next_breakpoint_id = s.next_breakpoint_id
      ∧ (s.ImplicitlyDetach i).next_addr = s.next_addr
      ∧ (s.ImplicitlyDetach i).targets_.length = s.targets_.length := by
  unfold SystemImpl.ImplicitlyDetach
  split
  · simp
  · split
    · simp
    · simp [SystemImpl.NotifyWillDestroyProcess, SystemImpl.notifyObservers]

theorem detachLoop_frame (n : Nat) : ∀ (s : SystemImpl) (i : Nat),
    (s.detachLoop i n).breakpoints_ = s.breakpoints_
      ∧ (s.detachLoop i n).job_contexts_ = s.job_contexts_
      ∧ (s.detachLoop i n).observers = s.observers
      ∧ (s.detachLoop i n).next_breakpoint_id = s.next_breakpoint_id
      ∧ (s.detachLoop i n).next_addr = s.next_addr
      ∧ (s.detachLoop i n).targets_.length = s.targets_.length := by
  induction n with
  | zero => intro s i; simp [SystemImpl.detachLoop]
  | succ n ih =>
    intro s i
    obtain ⟨h1, h2, h3, h4, h5, h6⟩ := ih (s.ImplicitlyDetach i) (i + 1)
    obtain ⟨g1, g2, g3, g4, g5, g6⟩ := ImplicitlyDetach_frame s i
    simp only [SystemImpl.detachLoop]
    exact ⟨h1.trans g1, h2.trans g2, h3.trans g3, h4.trans g4, h5.trans g5, h6.trans g6⟩

theorem SessionRun.run_induct (P : SessionRun → Prop)
    (hstep : ∀ r op, P r → P (r.step op)) : ∀ (ops : List Op) (r : SessionRun),
    P r → P (r.run ops) := by
  intro ops
  induction ops with
  | nil => intro r h; exact h
  | cons op rest ih => intro r h; exact ih (r.step op) (hstep r op h)

/-! ### Breakpoint ids -/

theorem idsFresh_of_frame (r r1 : SessionRun) (h : r.idsFresh)
    (hb : r1.state.breakpoints_ = r.state.breakpoints_)
    (hc : r1.state.next_breakpoint_id = r.state.next_breakpoint_id)
    (hcr : r1.created = r.created) : r1.idsFresh := by
  unfold SessionRun.idsFresh SystemImpl.counterAhead at *
  rw [hb, hc, hcr]
  exact h

theorem idsFresh_create (r r1 : SessionRun) (b : BreakpointImpl) (h : r.idsFresh)
    (hid : b.backend_id = r.state.next_breakpoint_id)
    (hb : r1.state.breakpoints_ =
      StdMap.assign r.state.breakpoints_ r.state.next_breakpoint_id b)
    (hc : r1.state.next_breakpoint_id = r.state.next_breakpoint_id + 1)
    (hcr : r1.created = r.created ++ [b]) : r1.idsFresh := by
  obtain ⟨h1, h2, h3, h4, h5⟩ := h
  have hb1 : r1.state.breakpoints_ = r.state.breakpoints_ ++ [(r.state.next_breakpoint_id, b)] := by
    rw [hb, StdMap.assign_fresh _ _ _ h1]
  refine ⟨counterAhead_assign _ _ b h1 hb hc, ?_, ?_, ?_, ?_⟩
  · intro kv hkv
    rw [hb1] at hkv
    rcases List.mem_append.1 hkv with hm | hm
    · exact h2 kv hm
    · rw [List.mem_singleton] at hm
      rw [hm]
      exact hid
  · rw [hb1, List.map_append, List.nodup_append]
    refine ⟨h3, by simp, ?_⟩
    intro k hk hk1
    simp only [List.map_cons, List.map_nil, List.mem_singleton] at hk1
    obtain ⟨kv, hkv, rfl⟩ := List.mem_map.1 hk
    have := h1 kv hkv
    omega
  · intro c hc1
    rw [hcr] at hc1
    rw [hc]
    rcases List.mem_append.1 hc1 with hm | hm
    · exact Nat.lt_succ_of_lt (h4 c hm)
    · rw [List.mem_singleton] at hm
      rw [hm, hid]
      exact Nat.lt_succ_self _
  · rw [hcr, List.pairwise_append]
    refine ⟨h5, by simp, ?_⟩
    intro a ha c hc1
    rw [List.mem_singleton] at hc1
    rw [hc1, hid]
    exact h4 a ha

theorem idsFresh_delete (r : SessionRun) (b : BreakpointImpl) (h : r.idsFresh) :
    ({ r with status := (r.state.DeleteBreakpoint b).1,
              state := (r.state.DeleteBreakpoint b).2 } : SessionRun).idsFresh := by
  cases hf : StdMap.find r.state.breakpoints_ b.backend_id with
  | none =>
    have h2 : (r.state.DeleteBreakpoint b).2 = r.state := by
      rw [DeleteBreakpoint_missing r.state b hf]
    exact idsFresh_of_frame r _ h (by rw [h2]) (by rw [h2]) rfl
  | some found =>
    obtain ⟨h1, h2, h3, h4, h5⟩ := h
    have hsub : List.Sublist (r.state.DeleteBreakpoint b).2.breakpoints_ r.state.breakpoints_ := by
      rw [DeleteBreakpoint_found r.state b found hf]
      by_cases hi : found.is_internal = true
      · simpa [hi] using StdMap.erase_sublist r.state.breakpoints_ b.backend_id
      · simpa [hi, SystemImpl.notifyObservers] using
          StdMap.erase_sublist r.state.breakpoints_ b.backend_id
    have hcnt : (r.state.DeleteBreakpoint b).2.next_breakpoint_id =
        r.state.next_breakpoint_id := by
      rw [DeleteBreakpoint_found r.state b found hf]
      by_cases hi : found.is_internal = true
      · simp [hi]
      · simp [hi, SystemImpl.notifyObservers]
    refine ⟨?_, ?_, ?_, ?_, h5⟩
    · intro kv hkv
      show kv.1 < (r.state.DeleteBreakpoint b).2.next_breakpoint_id
      rw [hcnt]
      exact h1 kv (hsub.subset hkv)
    · intro kv hkv
      exact h2 kv (hsub.subset hkv)
    · exact List.Nodup.sublist (hsub.map Prod.fst) h3
    · intro c hc
      show c.backend_id < (r.state.DeleteBreakpoint b).2.next_breakpoint_id
      rw [hcnt]
      exact h4 c hc

theorem step_idsFresh (r : SessionRun) (op : Op) (h : r.idsFresh) : (r.step op).idsFresh := by
  unfold SessionRun.step
  cases hs : r.status with
  | error e => exact h
  | ok u =>
    cases op with
    | CreateNewBreakpoint =>
      exact idsFresh_create r _ r.state.CreateNewBreakpoint.1 h rfl
        (CreateNewBreakpoint_breakpoints _) (CreateNewBreakpoint_counter _) rfl
    | CreateNewInternalBreakpoint =>
      exact idsFresh_create r _ r.state.CreateNewInternalBreakpoint.1 h rfl
        (CreateNewInternalBreakpoint_breakpoints _) (CreateNewInternalBreakpoint_counter _) rfl
    | DeleteBreakpoint b => exact idsFresh_delete r b h
    | DidDisconnect =>
      exact idsFresh_of_frame r _ h (detachLoop_frame _ _ _).1 (detachLoop_frame _ _ _).2.2.2.1 rfl
    | CreateNewTarget clone => cases clone <;> exact idsFresh_of_frame r _ h rfl rfl rfl
    | CreateNewJobContext clone => cases clone <;> exact idsFresh_of_frame r _ h rfl rfl rfl
    | GetProcessTree => exact idsFresh_of_frame r _ h rfl rfl rfl
    | Pause => exact idsFresh_of_frame r _ h rfl rfl rfl
    | Continue => exact idsFresh_of_frame r _ h rfl rfl rfl
    | DidConnect => exact idsFresh_of_frame r _ h rfl rfl rfl
    | NotifyDidCreateProcess p => exact idsFresh_of_frame r _ h rfl rfl rfl
    | NotifyWillDestroyProcess p => exact idsFresh_of_frame r _ h rfl rfl rfl
    | AddObserver o => exact idsFresh_of_frame r _ h rfl rfl rfl
    | RemoveObserver o => exact idsFresh_of_frame r _ h rfl rfl rfl
    | OnSymbolIndexingInformation msg => exact idsFresh_of_frame r _ h rfl rfl rfl

theorem construct_idsFresh (next_breakpoint_id next_addr : Nat) :
    (SessionRun.start (SystemImpl.construct next_breakpoint_id next_addr)).idsFresh := by
  refine ⟨?_, ?_, ?_, ?_, ?_⟩
  · intro kv hkv
    exact absurd hkv (List.not_mem_nil _)
  · intro kv hkv
    exact absurd hkv (List.not_mem_nil _)
  · exact List.nodup_nil
  · intro b hb
    exact absurd hb (List.not_mem_nil _)
  · exact List.Pairwise.nil

/-- C4: in the session that follows the construction of the System, after any
sequence of operations (creations and deletions of breakpoints among them) no two
registered breakpoints have the same id, every registered breakpoint is stored
under its own id, and the ids of the breakpoints created so far, deleted ones
included, are strictly increasing in creation order, so that no id is given twice. -/
theorem breakpoint_ids_never_reused (next_breakpoint_id next_addr : Nat) (ops : List Op) :
    (((SessionRun.start (SystemImpl.construct next_breakpoint_id next_addr)).run
        ops).state.breakpoints_.map (fun kv => kv.2.backend_id)).Nodup
      ∧ (∀ kv ∈ ((SessionRun.start (SystemImpl.construct next_breakpoint_id next_addr)).run
          ops).state.breakpoints_, kv.2.backend_id = kv.1)
      ∧ ((SessionRun.start (SystemImpl.construct next_breakpoint_id next_addr)).run
          ops).created.Pairwise (fun a b => a.backend_id < b.backend_id)
      ∧ (((SessionRun.start (SystemImpl.construct next_breakpoint_id next_addr)).run
          ops).created.map (fun b => b.backend_id)).Nodup := by
  obtain ⟨_, h2, h3, _, h5⟩ := SessionRun.run_induct SessionRun.idsFresh step_idsFresh ops _
    (construct_idsFresh next_breakpoint_id next_addr)
  refine ⟨?_, h2, h5, ?_⟩
  · have hmap : List.map (fun kv : Nat × BreakpointImpl => kv.2.backend_id)
          ((SessionRun.start (SystemImpl.construct next_breakpoint_id next_addr)).run
            ops).state.breakpoints_
        = List.map Prod.fst
          ((SessionRun.start (SystemImpl.construct next_breakpoint_id next_addr)).run
            ops).state.breakpoints_ :=
      List.map_congr_left h2
    rw [hmap]
    exact h3
  · unfold List.Nodup
    rw [List.pairwise_map]
    exact h5.imp (fun hlt => Nat.ne_of_lt hlt)

/-! ### Targets and job contexts -/

theorem step_keeps_lengths (r : SessionRun) (op : Op) :
    r.state.targets_.length ≤ (r.step op).state.targets_.length
      ∧ r.state.job_contexts_.length ≤ (r.step op).state.job_contexts_.length := by
  unfold SessionRun.step
  cases hs : r.status with
  | error e => exact ⟨le_rfl, le_rfl⟩
  | ok u =>
    cases op with
    | CreateNewTarget clone =>
      cases clone <;>
        simp [SystemImpl.CreateNewTarget, SystemImpl.AddNewTarget, SystemImpl.notifyObservers,
          TargetImpl.make, TargetImpl.Clone]
    | CreateNewJobContext clone =>
      cases clone <;>
        simp [SystemImpl.CreateNewJobContext, SystemImpl.AddNewJobContext,
          SystemImpl.notifyObservers, JobContextImpl.make, JobContextImpl.Clone]
    | DeleteBreakpoint b =>
      exact ⟨le_of_eq (congrArg List.length (DeleteBreakpoint_frame r.state b).1.symm),
        le_of_eq (congrArg List.length (DeleteBreakpoint_frame r.state b).2.1.symm)⟩
    | DidDisconnect =>
      exact ⟨le_of_eq (detachLoop_frame _ _ _).2.2.2.2.2.symm,
        le_of_eq (congrArg List.length (detachLoop_frame _ _ _).2.1.symm)⟩
    | CreateNewBreakpoint => exact ⟨le_rfl, le_rfl⟩
    | CreateNewInternalBreakpoint => exact ⟨le_rfl, le_rfl⟩
    | GetProcessTree => exact ⟨le_rfl, le_rfl⟩
    | Pause => exact ⟨le_rfl, le_rfl⟩
    | Continue => exact ⟨le_rfl, le_rfl⟩
    | DidConnect => exact ⟨le_rfl, le_rfl⟩
    | NotifyDidCreateProcess p => exact ⟨le_rfl, le_rfl⟩
    | NotifyWillDestroyProcess p => exact ⟨le_rfl, le_rfl⟩
    | AddObserver o => exact ⟨le_rfl, le_rfl⟩
    | RemoveObserver o => exact ⟨le_rfl, le_rfl⟩
    | OnSymbolIndexingInformation msg => exact ⟨le_rfl, le_rfl⟩

/-- C7: right after construction the System holds exactly one target, and it is the
one a default construction gives (no process, empty launch configuration), and
exactly one job context, likewise the default one; and after any sequence of
operations on the live System GetTargets() and GetJobContexts() are both non-empty. -/
theorem targets_and_job_contexts_never_empty (next_breakpoint_id next_addr : Nat)
    (ops : List Op) :
    (SystemImpl.construct next_breakpoint_id next_addr).targets_
        = [{ addr := next_addr, args := [], process := none }]
      ∧ (SystemImpl.construct next_breakpoint_id next_addr).GetTargets = [next_addr]
      ∧ (SystemImpl.construct next_breakpoint_id next_addr).job_contexts_
        = [{ addr := next_addr + 1 }]
      ∧ (SystemImpl.construct next_breakpoint_id next_addr).GetJobContexts = [next_addr + 1]
      ∧ ((SessionRun.start (SystemImpl.construct next_breakpoint_id next_addr)).run
          ops).state.GetTargets ≠ []
      ∧ ((SessionRun.start (SystemImpl.construct next_breakpoint_id next_addr)).run
          ops).state.GetJobContexts ≠ [] := by
  refine ⟨rfl, rfl, rfl, rfl, ?_⟩
  have h := SessionRun.run_induct
    (fun r => 1 ≤ r.state.targets_.length ∧ 1 ≤ r.state.job_contexts_.length)
    (fun r op hr => ⟨le_trans hr.1 (step_keeps_lengths r op).1,
      le_trans hr.2 (step_keeps_lengths r op).2⟩)
    ops (SessionRun.start (SystemImpl.construct next_breakpoint_id next_addr))
    ⟨le_rfl, le_rfl⟩
  constructor
  · intro hnil
    have hlen := congrArg List.length hnil
    simp only [SystemImpl.GetTargets, List.length_map, List.length_nil] at hlen
    omega
  · intro hnil
    have hlen := congrArg List.length hnil
    simp only [SystemImpl.GetJobContexts, List.length_map, List.length_nil] at hlen
    omega

/-- C8: for CreateNewTarget(clone), with or without a clone, the System sends
DidCreateTarget for the returned target once per entry of the observer list, in
list order, and nothing else; each observer is called when the target list is
already the old list followed by the returned target. -/
theorem CreateNewTarget_notifies_after_insert (s : SystemImpl) (clone : Option TargetImpl) :
    ∃ (target : TargetImpl) (seen : SystemData),
      target.addr = (s.CreateNewTarget clone).1
        ∧ (s.CreateNewTarget clone).2.trace = s.trace ++ s.observers.map
            (fun o => Event.notify o
              (Notification.DidCreateTarget (s.CreateNewTarget clone).1) seen)
        ∧ (∀ o, ((s.CreateNewTarget clone).2.trace.drop s.trace.length).count
              (Event.notify o (Notification.DidCreateTarget (s.CreateNewTarget clone).1) seen)
            = s.observers.count o)
        ∧ seen.targets_ = s.targets_ ++ [target]
        ∧ (s.CreateNewTarget clone).1 ∈ seen.targets_.map (fun t => t.addr)
        ∧ seen = (s.CreateNewTarget clone).2.toSystemData := by
  cases clone with
  | none =>
    exact ⟨{ addr := s.next_addr, args := [], process := none }, _, rfl, rfl,
      count_fanout s.trace s.observers _ _, rfl,
      List.mem_map.2 ⟨_, List.mem_append_right _ (List.mem_singleton_self _), rfl⟩, rfl⟩
  | some c =>
    exact ⟨{ addr := s.next_addr, args := c.args, process := none }, _, rfl, rfl,
      count_fanout s.trace s.observers _ _, rfl,
      List.mem_map.2 ⟨_, List.mem_append_right _ (List.mem_singleton_self _), rfl⟩, rfl⟩

/-! ### Global control -/

/-- C10: whatever the System holds, Pause() sends exactly one request to the remote
agent, a Pause with process_koid 0 and thread_koid 0, and Continue() sends exactly
one request, a Resume with process_koid 0 and mode kContinue; neither call changes
the collections of the System. -/
theorem Pause_Continue_broadcast (s : SystemImpl) :
    (s.Pause.trace = s.trace ++ [Event.remotePause { process_koid := 0, thread_koid := 0 }]
      ∧ s.Pause.toSystemData = s.toSystemData)
    ∧ (∃ request : ResumeRequest,
        s.Continue.trace = s.trace ++ [Event.remoteResume request]
          ∧ request.process_koid = 0 ∧ request.how = How.kContinue)
    ∧ s.Continue.toSystemData = s.toSystemData :=
  ⟨⟨rfl, rfl⟩, ⟨_, rfl, rfl, rfl⟩, rfl⟩

/-! ### Detaching and teardown -/

theorem ImplicitlyDetach_detached (s : SystemImpl) (i : Nat) (target : TargetImpl)
    (h : s.targets_[i]? = some target) (hp : target.process = none) :
    s.ImplicitlyDetach i = s := by
  unfold SystemImpl.ImplicitlyDetach
  rw [h]
  simp only [hp]

theorem ImplicitlyDetach_attached (s : SystemImpl) (i : Nat) (target : TargetImpl)
    (process : ProcessImpl) (h : s.targets_[i]? = some target)
    (hp : target.process = some process) :
    s.ImplicitlyDetach i =
      { s with
        targets_ := s.targets_.set i { target with process := none },
        trace := s.trace ++ s.observers.map
          (fun o => Event.notify o (Notification.GlobalWillDestroyProcess process)
            s.toSystemData) } := by
  unfold SystemImpl.ImplicitlyDetach
  rw [h]
  simp only [hp]
  rfl

theorem map_addr_set (l : List TargetImpl) (i : Nat) (t t1 : TargetImpl)
    (h : l[i]? = some t) (ha : t1.addr = t.addr) :
    (l.set i t1).map (fun x => x.addr) = l.map (fun x => x.addr) := by
  apply List.ext_getElem?
  intro n
  simp only [List.getElem?_map, List.getElem?_set]
  by_cases hn : i = n
  · subst hn
    have hlt : i < l.length := by
      rcases List.getElem?_eq_some.1 h with ⟨hlt, _⟩
      exact hlt
    simp [hlt, h, ha]
  · simp [hn]

theorem destructTarget_spec (s : SystemImpl) (i : Nat) (target : TargetImpl)
    (h : s.targets_[i]? = some target) :
    (s.destructTarget i).observers = s.observers
      ∧ (s.destructTarget i).targets_[i]? = some { target with process := none }
      ∧ (∀ j, j ≠ i → (s.destructTarget i).targets_[j]? = s.targets_[j]?)
      ∧ (s.destructTarget i).targets_.map (fun t => t.addr) = s.targets_.map (fun t => t.addr)
      ∧ (s.destructTarget i).trace = s.trace ++
          teardownBlock s.observers target s.toSystemData (s.destructTarget i).toSystemData := by
  have hlt : i < s.targets_.length := by
    rcases List.getElem?_eq_some.1 h with ⟨hlt, _⟩
    exact hlt
  cases hp : target.process with
  | none =>
    have heta : ({ target with process := none } : TargetImpl) = target := by
      cases target
      simp only at hp
      subst hp
      rfl
    have hd : s.destructTarget i =
        s.notifyObservers (Notification.WillDestroyTarget target.addr) := by
      unfold SystemImpl.destructTarget
      simp only [ImplicitlyDetach_detached s i target h hp, h]
    rw [hd]
    refine ⟨rfl, ?_, fun j _ => rfl, rfl, ?_⟩
    · show s.targets_[i]? = _
      rw [h, heta]
    · simp [SystemImpl.notifyObservers, teardownBlock, hp]
  | some process =>
    have hset : (s.targets_.set i { target with process := none })[i]? =
        some { target with process := none } := by
      rw [List.getElem?_set_self hlt]
    have hd : s.destructTarget i =
        (s.ImplicitlyDetach i).notifyObservers (Notification.WillDestroyTarget target.addr) := by
      unfold SystemImpl.destructTarget
      have h1 : (s.ImplicitlyDetach i).targets_[i]? = some { target with process := none } := by
        rw [ImplicitlyDetach_attached s i target process h hp]
        exact hset
      simp only [h1]
    rw [hd, ImplicitlyDetach_attached s i target process h hp]
    refine ⟨rfl, hset, ?_, ?_, ?_⟩
    · intro j hj
      show (s.targets_.set i { target with process := none })[j]? = _
      rw [List.getElem?_set_ne (Ne.symm hj)]
    · exact map_addr_set s.targets_ i target _ h rfl
    · simp [SystemImpl.notifyObservers, teardownBlock, hp]

theorem destructLoop_spec (n : Nat) : ∀ (s : SystemImpl) (i : Nat),
    i + n = s.targets_.length →
    ∃ blocks : List (List Event),
      (s.destructLoop i n).trace = s.trace ++ blocks.flatten
        ∧ blocks.length = n
        ∧ ∀ k target, s.targets_[i + k]? = some target →
            ∃ before after : SystemData,
              blocks[k]? = some (teardownBlock s.observers target before after)
                ∧ before.targets_[i + k]? = some target
                ∧ after.targets_[i + k]? = some { target with process := none }
                ∧ after.targets_.map (fun t => t.addr) = s.targets_.map (fun t => t.addr) := by
  induction n with
  | zero =>
    intro s i hlen
    refine ⟨[], by simp [SystemImpl.destructLoop], rfl, ?_⟩
    intro k target hk
    rcases List.getElem?_eq_some.1 hk with ⟨hlt, _⟩
    omega
  | succ n ih =>
    intro s i hlen
    have hi : i < s.targets_.length := by omega
    have hget : s.targets_[i]? = some (s.targets_[i]) := List.getElem?_eq_getElem hi
    obtain ⟨hobs, hself, hother, haddr, htrace⟩ := destructTarget_spec s i _ hget
    have hlen1 : (s.destructTarget i).targets_.length = s.targets_.length := by
      have := congrArg List.length haddr
      simpa using this
    obtain ⟨blocks, hb1, hb2, hb3⟩ := ih (s.destructTarget i) (i + 1) (by omega)
    refine ⟨teardownBlock s.observers (s.targets_[i]) s.toSystemData
        (s.destructTarget i).toSystemData :: blocks, ?_, by simp [hb2], ?_⟩
    · show ((s.destructTarget i).destructLoop (i + 1) n).trace = _
      rw [hb1, htrace, List.flatten_cons, List.append_assoc]
    · intro k target hk
      cases k with
      | zero =>
        have ht : s.targets_[i] = target := by
          rw [Nat.add_zero, hget] at hk
          exact Option.some.inj hk
        subst ht
        exact ⟨s.toSystemData, (s.destructTarget i).toSystemData, List.getElem?_cons_zero,
          hget, hself, haddr⟩
      | succ k =>
        have hidx : i + (k + 1) = i + 1 + k := by omega
        have hk1 : (s.destructTarget i).targets_[i + 1 + k]? = some target := by
          rw [hother (i + 1 + k) (by omega), ← hidx]
          exact hk
        obtain ⟨before, after, h1, h2, h3, h4⟩ := hb3 k target hk1
        refine ⟨before, after, ?_, ?_, ?_, ?_⟩
        · rw [List.getElem?_cons_succ, h1, hobs]
        · rw [hidx]; exact h2
        · rw [hidx]; exact h3
        · rw [h4, haddr]

/-- C9: the destructor sends, for the targets in list order, one block per target:
first the process-destruction callbacks of that target (when it has a process),
the target still being attached, then WillDestroyTarget for that target to every
observer, the target by then being detached; while these callbacks run the target
list still holds every target, and once they have all been sent the list is empty. -/
theorem destruct_detaches_before_notifying (s : SystemImpl) :
    s.destruct.targets_ = []
      ∧ ∃ blocks : List (List Event),
          s.destruct.trace = s.trace ++ blocks.flatten
            ∧ blocks.length = s.targets_.length
            ∧ ∀ (i : Nat) (target : TargetImpl), s.targets_[i]? = some target →
                ∃ before after : SystemData,
                  blocks[i]? = some (teardownBlock s.observers target before after)
                    ∧ before.targets_[i]? = some target
                    ∧ after.targets_[i]? = some { target with process := none }
                    ∧ after.targets_.map (fun t => t.addr) = s.GetTargets := by
  refine ⟨rfl, ?_⟩
  obtain ⟨blocks, h1, h2, h3⟩ := destructLoop_spec s.targets_.length s 0 (by omega)
  refine ⟨blocks, h1, h2, ?_⟩
  intro i target hi
  have := h3 i target (by rw [Nat.zero_add]; exact hi)
  rw [Nat.zero_add] at this
  exact this

/-- The destructor on the demo System: the process of each attached target is
announced before the target itself, and the second target, which has no process,
is announced alone. -/
theorem destruct_demo_trace :
    demoSystem.destruct.trace.map
        (fun e => match e with
          | Event.notify o what _ => some (o, what)
          | _ => none)
      = [some (7, Notification.GlobalWillDestroyProcess { koid := 41 }),
         some (9, Notification.GlobalWillDestroyProcess { koid := 41 }),
         some (7, Notification.WillDestroyTarget 100),
         some (9, Notification.WillDestroyTarget 100),
         some (7, Notification.WillDestroyTarget 102),
         some (9, Notification.WillDestroyTarget 102),
         some (7, Notification.GlobalWillDestroyProcess { koid := 42 }),
         some (9, Notification.GlobalWillDestroyProcess { koid := 42 }),
         some (7, Notification.WillDestroyTarget 103),
         some (9, Notification.WillDestroyTarget 103)]
      ∧ demoSystem.destruct.targets_ = [] := by
  decide

/-! ### The definitions at work on the demo System -/

/-- A session on the demo System: the ids handed out keep growing after a deletion,
and the deleted id does not come back. -/
theorem demo_session_ids :
    (((SessionRun.start demoSystem).run
        [Op.CreateNewBreakpoint, Op.CreateNewInternalBreakpoint,
         Op.DeleteBreakpoint { backend_id := 3, is_internal := false },
         Op.CreateNewBreakpoint]).created.map (fun b => b.backend_id) = [3, 4, 5])
      ∧ (((SessionRun.start demoSystem).run
        [Op.CreateNewBreakpoint, Op.CreateNewInternalBreakpoint,
         Op.DeleteBreakpoint { backend_id := 3, is_internal := false },
         Op.CreateNewBreakpoint]).state.breakpoints_.map Prod.fst = [1, 2, 4, 5])
      ∧ (((SessionRun.start demoSystem).run
        [Op.CreateNewBreakpoint, Op.CreateNewInternalBreakpoint,
         Op.DeleteBreakpoint { backend_id := 3, is_internal := false },
         Op.CreateNewBreakpoint]).state.GetBreakpoints.map (fun b => b.backend_id) = [1, 5]) := by
  decide

/-- A session on the demo System stops at the deletion of an unknown breakpoint. -/
theorem demo_session_fatal :
    ((SessionRun.start demoSystem).run
        [Op.DeleteBreakpoint { backend_id := 9, is_internal := false },
         Op.CreateNewBreakpoint]).status = Except.error Fatal.notreached
      ∧ ((SessionRun.start demoSystem).run
        [Op.DeleteBreakpoint { backend_id := 9, is_internal := false },
         Op.CreateNewBreakpoint]).state = demoSystem :=
  ⟨rfl, rfl⟩

/-- Process lookup on the demo System: the third target is attached to koid 42, the
second target has no process, and no target is attached to koid 7. -/
theorem demo_ProcessFromKoid :
    demoSystem.ProcessFromKoid 42 = some { koid := 42 }
      ∧ demoSystem.ProcessFromKoid 41 = some { koid := 41 }
      ∧ demoSystem.ProcessFromKoid 7 = none := by
  decide

/-- Target creation on the demo System: the clone of the second target carries its
launch configuration and no process, and both observers are told once. -/
theorem demo_CreateNewTarget :
    (demoSystem.CreateNewTarget
        (some { addr := 102, args := ["-v"], process := none })).1 = 104
      ∧ (demoSystem.CreateNewTarget
        (some { addr := 102, args := ["-v"], process := none })).2.targets_
          = demoSystem.targets_ ++ [{ addr := 104, args := ["-v"], process := none }]
      ∧ (demoSystem.CreateNewTarget
        (some { addr := 102, args := ["-v"], process := none })).2.trace.map
          (fun e => match e with
            | Event.notify o what _ => some (o, what)
            | _ => none)
          = [some (7, Notification.DidCreateTarget 104),
             some (9, Notification.DidCreateTarget 104)] := by
  decide

/-! ### Disconnect -/

theorem set_same {α : Type} (l : List α) (i : Nat) (a : α) (h : l[i]? = some a) :
    l.set i a = l := by
  apply List.ext_getElem?
  intro n
  rw [List.getElem?_set]
  by_cases hn : i = n
  · subst hn
    have hlt : i < l.length := by
      rcases List.getElem?_eq_some.1 h with ⟨hlt, _⟩
      exact hlt
    simp [hlt, h]
  · simp [hn]

theorem ImplicitlyDetach_spec (s : SystemImpl) (i : Nat) (target : TargetImpl)
    (h : s.targets_[i]? = some target) :
    (s.ImplicitlyDetach i).observers = s.observers
      ∧ (s.ImplicitlyDetach i).targets_ = s.targets_.set i target.detached
      ∧ (s.ImplicitlyDetach i).trace = s.trace ++ detachBlock s.observers target s.toSystemData := by
  cases hp : target.process with
  | none =>
    have heta : target.detached = target := by
      cases target
      simp only at hp
      subst hp
      rfl
    rw [ImplicitlyDetach_detached s i target h hp, heta, set_same _ _ _ h]
    simp [detachBlock, hp]
  | some process =>
    rw [ImplicitlyDetach_attached s i target process h hp]
    simp [detachBlock, hp, TargetImpl.detached]

theorem detachLoop_spec (n : Nat) : ∀ (s : SystemImpl) (i : Nat),
    i + n = s.targets_.length →
    (∀ j : Nat, (s.detachLoop i n).targets_[j]? =
        if j < i then s.targets_[j]? else (s.targets_[j]?).map TargetImpl.detached)
      ∧ ∃ blocks : List (List Event),
          (s.detachLoop i n).trace = s.trace ++ blocks.flatten
            ∧ blocks.length = n
            ∧ ∀ k target, s.targets_[i + k]? = some target →
                ∃ seen : SystemData,
                  blocks[k]? = some (detachBlock s.observers target seen)
                    ∧ seen.targets_[i + k]? = some target := by
  induction n with
  | zero =>
    intro s i hlen
    refine ⟨?_, [], by simp [SystemImpl.detachLoop], rfl, ?_⟩
    · intro j
      simp only [SystemImpl.detachLoop]
      by_cases hj : j < i
      · rw [if_pos hj]
      · rw [if_neg hj, List.getElem?_eq_none (by omega)]
        rfl
    · intro k target hk
      rcases List.getElem?_eq_some.1 hk with ⟨hlt, _⟩
      omega
  | succ n ih =>
    intro s i hlen
    have hi : i < s.targets_.length := by omega
    have hget : s.targets_[i]? = some (s.targets_[i]) := List.getElem?_eq_getElem hi
    obtain ⟨hobs, htargets, htrace⟩ := ImplicitlyDetach_spec s i _ hget
    have hlen1 : (s.ImplicitlyDetach i).targets_.length = s.targets_.length := by
      rw [htargets, List.length_set]
    obtain ⟨hidx, blocks, hb1, hb2, hb3⟩ := ih (s.ImplicitlyDetach i) (i + 1) (by omega)
    refine ⟨?_, detachBlock s.observers (s.targets_[i]) s.toSystemData :: blocks, ?_,
      by simp [hb2], ?_⟩
    · intro j
      show ((s.ImplicitlyDetach i).detachLoop (i + 1) n).targets_[j]? = _
      rw [hidx j, htargets]
      by_cases hji : j = i
      · subst hji
        rw [if_pos (by omega), if_neg (by omega), List.getElem?_set_self hi, hget]
        rfl
      · rw [List.getElem?_set_ne (Ne.symm hji)]
        by_cases hlt : j < i
        · rw [if_pos (by omega), if_pos hlt]
        · rw [if_neg (by omega), if_neg hlt]
    · show ((s.ImplicitlyDetach i).detachLoop (i + 1) n).trace = _
      rw [hb1, htrace, List.flatten_cons, List.append_assoc]
    · intro k target hk
      cases k with
      | zero =>
        have ht : s.targets_[i] = target := by
          rw [Nat.add_zero, hget] at hk
          exact Option.some.inj hk
        subst ht
        exact ⟨s.toSystemData, List.getElem?_cons_zero, hget⟩
      | succ k =>
        have hidx1 : i + (k + 1) = i + 1 + k := by omega
        have hk1 : (s.ImplicitlyDetach i).targets_[i + 1 + k]? = some target := by
          rw [htargets, List.getElem?_set_ne (by omega), ← hidx1]
          exact hk
        obtain ⟨seen, h1, h2⟩ := hb3 k target hk1
        refine ⟨seen, ?_, ?_⟩
        · rw [List.getElem?_cons_succ, h1, hobs]
        · rw [hidx1]; exact h2

/-- C11: DidDisconnect leaves every target detached (the same targets, in the same
order, none with a process), so that ProcessFromKoid finds nothing for any koid;
what it sends is, for the targets in list order, one block per target: the
process-destruction callbacks of that target, sent while it is still attached,
once per observer, and nothing for a target that had no process. -/
theorem DidDisconnect_detaches_every_target (s : SystemImpl) :
    s.DidDisconnect.targets_ = s.targets_.map TargetImpl.detached
      ∧ (∀ t ∈ s.DidDisconnect.targets_, t.process = none)
      ∧ (∀ koid, s.DidDisconnect.ProcessFromKoid koid = none)
      ∧ ∃ blocks : List (List Event),
          s.DidDisconnect.trace = s.trace ++ blocks.flatten
            ∧ blocks.length = s.targets_.length
            ∧ ∀ (i : Nat) (target : TargetImpl), s.targets_[i]? = some target →
                ∃ seen : SystemData,
                  blocks[i]? = some (detachBlock s.observers target seen)
                    ∧ seen.targets_[i]? = some target := by
  obtain ⟨hidx, blocks, h1, h2, h3⟩ := detachLoop_spec s.targets_.length s 0 (by omega)
  have htargets : s.DidDisconnect.targets_ = s.targets_.map TargetImpl.detached := by
    apply List.ext_getElem?
    intro j
    show (s.detachLoop 0 s.targets_.length).targets_[j]? = _
    rw [hidx j, if_neg (by omega), List.getElem?_map]
  have hnone : ∀ t ∈ s.DidDisconnect.targets_, t.process = none := by
    intro t ht
    rw [htargets] at ht
    obtain ⟨t0, _, rfl⟩ := List.mem_map.1 ht
    rfl
  refine ⟨htargets, hnone, ?_, blocks, h1, h2, ?_⟩
  · intro koid
    apply (ProcessImplFromKoid_scan_none s.DidDisconnect.targets_ koid).2
    intro t ht p hp
    rw [hnone t ht] at hp
    exact absurd hp (by simp)
  · intro i target hi
    have := h3 i target (by rw [Nat.zero_add]; exact hi)
    rw [Nat.zero_add] at this
    exact this

/-- Disconnect on the demo System: the two attached targets lose their process, in
list order, and each observer hears of each process once. -/
theorem demo_DidDisconnect :
    demoSystem.DidDisconnect.targets_.map (fun t => t.process) = [none, none, none]
      ∧ demoSystem.DidDisconnect.trace.map
          (fun e => match e with
            | Event.notify o what _ => some (o, what)
            | _ => none)
        = [some (7, Notification.GlobalWillDestroyProcess { koid := 41 }),
           some (9, Notification.GlobalWillDestroyProcess { koid := 41 }),
           some (7, Notification.GlobalWillDestroyProcess { koid := 42 }),
           some (9, Notification.GlobalWillDestroyProcess { koid := 42 })] := by
  decide

/-! ### Thread controllers -/

/-- C12: the three factory functions of ContinueOp give the three modes: Continue()
has how = kContinue, StepInstruction() has how = kStepInstruction, and
StepInRange(r) has how = kStepInRange and range = r for every r; the two modes
without a range hold the default range, which is empty; and every ContinueOp has
one of the three modes. -/
theorem ContinueOp_three_modes :
    ContinueOp.Continue.how = How.kContinue
      ∧ ContinueOp.StepInstruction.how = How.kStepInstruction
      ∧ (∀ r : AddressRange, (ContinueOp.StepInRange r).how = How.kStepInRange
          ∧ (ContinueOp.StepInRange r).range = r)
      ∧ ContinueOp.Continue.range = {}
      ∧ ContinueOp.StepInstruction.range = {}
      ∧ AddressRange.empty {}
      ∧ ∀ op : ContinueOp, op.how = How.kContinue ∨ op.how = How.kStepInstruction
          ∨ op.how = How.kStepInRange := by
  refine ⟨rfl, rfl, fun r => ⟨rfl, rfl⟩, rfl, rfl, Nat.le_refl _, ?_⟩
  intro op
  cases op.how
  · exact Or.inl rfl
  · exact Or.inr (Or.inl rfl)
  · exact Or.inr (Or.inr rfl)

theorem OnStop_any_iff (controllers : List ThreadController) (stop_type : Nat)
    (hits : List BreakpointImpl) :
    ((controllers.map (fun c => (c, c.OnThreadStop stop_type hits))).any
        (fun cv => cv.2 == StopOp.kStop)) = true
      ↔ ∃ c ∈ controllers, c.OnThreadStop stop_type hits = StopOp.kStop := by
  simp [List.any_eq_true]

theorem OnStop_survivors (controllers : List ThreadController) (stop_type : Nat)
    (hits : List BreakpointImpl) :
    (((controllers.map (fun c => (c, c.OnThreadStop stop_type hits))).filter
        (fun cv => cv.2 != StopOp.kStop)).map (fun cv => cv.1))
      = controllers.filter (fun c => c.OnThreadStop stop_type hits == StopOp.kContinue) := by
  induction controllers with
  | nil => rfl
  | cons c rest ih =>
    simp only [List.map_cons, List.filter_cons]
    cases hv : c.OnThreadStop stop_type hits with
    | kContinue =>
      have h1 : (StopOp.kContinue != StopOp.kStop) = true := by decide
      have h2 : (StopOp.kContinue == StopOp.kContinue) = true := by decide
      simp only [h1, h2, if_true, List.map_cons, ih]
    | kStop =>
      have h1 : (StopOp.kStop != StopOp.kStop) = false := by decide
      have h2 : (StopOp.kStop == StopOp.kContinue) = false := by decide
      simp only [h1, h2, Bool.false_eq_true, if_false, ih]

theorem StopOp_not_stop (v : StopOp) : v ≠ StopOp.kStop ↔ v = StopOp.kContinue := by
  cases v <;> simp

/-- C13: for every stack of controllers and every stop, the aggregate decision is
kStop as soon as one controller, anywhere in the stack, votes kStop; the decision
is kContinue (the thread is resumed) exactly when every controller votes
kContinue, and the thread is then resumed with the continue-op of the controller
on top of the stack, the stack being left as it is; on a stop no continue-op is
used and the controllers that stay are exactly those that voted kContinue. -/
theorem OnStop_stop_wins (controllers : List ThreadController) (stop_type : Nat)
    (hits : List BreakpointImpl) :
    (∀ before c after, controllers = before ++ c :: after →
        c.OnThreadStop stop_type hits = StopOp.kStop →
        (Thread.OnStop controllers stop_type hits).decision = StopOp.kStop)
      ∧ ((Thread.OnStop controllers stop_type hits).decision = StopOp.kContinue
          ↔ ∀ c ∈ controllers, c.OnThreadStop stop_type hits = StopOp.kContinue)
      ∧ (∀ top below, controllers = top :: below →
          (∀ c ∈ controllers, c.OnThreadStop stop_type hits = StopOp.kContinue) →
          (Thread.OnStop controllers stop_type hits).resume_with = some top.GetContinueOp
            ∧ (Thread.OnStop controllers stop_type hits).controllers = controllers)
      ∧ ((Thread.OnStop controllers stop_type hits).decision = StopOp.kStop →
          (Thread.OnStop controllers stop_type hits).resume_with = none
            ∧ (Thread.OnStop controllers stop_type hits).controllers
              = controllers.filter
                  (fun c => c.OnThreadStop stop_type hits == StopOp.kContinue)) := by
  have hany := OnStop_any_iff controllers stop_type hits
  by_cases hs : ∃ c ∈ controllers, c.OnThreadStop stop_type hits = StopOp.kStop
  · have hdec : Thread.OnStop controllers stop_type hits =
        { decision := StopOp.kStop,
          resume_with := none,
          controllers := ((controllers.map
            (fun c => (c, c.OnThreadStop stop_type hits))).filter
              (fun cv => cv.2 != StopOp.kStop)).map (fun cv => cv.1) } := by
      unfold Thread.OnStop
      simp only [hany.2 hs, if_true]
    rw [hdec]
    refine ⟨fun _ _ _ _ _ => rfl, ?_, ?_, ?_⟩
    · constructor
      · intro h
        exact StopOp.noConfusion h
      · intro hall
        obtain ⟨c, hc, hstop⟩ := hs
        rw [hall c hc] at hstop
        exact StopOp.noConfusion hstop
    · intro top below _ hall
      obtain ⟨c, hc, hstop⟩ := hs
      rw [hall c hc] at hstop
      exact StopOp.noConfusion hstop
    · intro _
      exact ⟨rfl, OnStop_survivors controllers stop_type hits⟩
  · have hdec : Thread.OnStop controllers stop_type hits =
        { decision := StopOp.kContinue,
          resume_with := controllers.head?.map (fun c => c.GetContinueOp),
          controllers := controllers } := by
      unfold Thread.OnStop
      have hfalse : ((controllers.map (fun c => (c, c.OnThreadStop stop_type hits))).any
          (fun cv => cv.2 == StopOp.kStop)) = false := by
        cases hb : (controllers.map (fun c => (c, c.OnThreadStop stop_type hits))).any
            (fun cv => cv.2 == StopOp.kStop) with
        | false => rfl
        | true => exact absurd (hany.1 hb) hs
      simp only [hfalse, Bool.false_eq_true, if_false]
    have hall : ∀ c ∈ controllers, c.OnThreadStop stop_type hits = StopOp.kContinue := by
      intro c hc
      exact (StopOp_not_stop _).1 (fun hstop => hs ⟨c, hc, hstop⟩)
    rw [hdec]
    refine ⟨?_, ?_, ?_, ?_⟩
    · intro before c after hsplit hstop
      exact absurd ⟨c, by rw [hsplit]; simp, hstop⟩ hs
    · exact ⟨fun _ => hall, fun _ => rfl⟩
    · intro top below htop _
      subst htop
      exact ⟨rfl, rfl⟩
    · intro h
      exact StopOp.noConfusion h

/-- A stop vote below the top of the stack wins, and the voter is removed; without
a hit both controllers vote to continue and the top one says how to resume. -/
theorem demo_OnStop :
    (Thread.OnStop [demoStepper, demoUntil] 0 [demoUserBreakpoint]).decision = StopOp.kStop
      ∧ (Thread.OnStop [demoStepper, demoUntil] 0 [demoUserBreakpoint]).controllers.map
          (fun c => c.GetContinueOp) = [ContinueOp.StepInstruction]
      ∧ (Thread.OnStop [demoStepper, demoUntil] 0 []).decision = StopOp.kContinue
      ∧ (Thread.OnStop [demoStepper, demoUntil] 0 []).resume_with
          = some ContinueOp.StepInstruction := by
  decide

/-! ### Member and base-class resolution -/

theorem sliceBytes_length (data : List Nat) (offset size : Nat)
    (h : offset + size ≤ data.length) : (sliceBytes data offset size).length = size := by
  simp only [sliceBytes, List.length_take, List.length_drop]
  omega

theorem sliceBytes_getElem? (data : List Nat) (offset size i : Nat) (hi : i < size) :
    (sliceBytes data offset size)[i]? = data[offset + i]? := by
  simp only [sliceBytes]
  rw [List.getElem?_take_of_lt hi, List.getElem?_drop]

/-- C14: when the bytes of the base value cover the member (offset o plus width w
within the length of the bytes), ResolveMember succeeds, and the value it gives
has the type of the member and exactly w bytes, its byte i being byte o + i of the
base value; the function only reads the base value. -/
theorem ResolveMember_slices_member (base : ExprValue) (member : DataMember)
    (hcover : member.member_location + member.type.byte_size ≤ base.data.length) :
    ∃ out : ExprValue,
      ResolveMember base (some member) = Except.ok out
        ∧ out.type = member.type
        ∧ out.data = (base.data.drop member.member_location).take member.type.byte_size
        ∧ out.data.length = member.type.byte_size
        ∧ ∀ i, i < member.type.byte_size →
            out.data[i]? = base.data[member.member_location + i]? :=
  ⟨_, rfl, rfl, rfl, sliceBytes_length _ _ _ hcover,
    fun i hi => sliceBytes_getElem? _ _ _ i hi⟩

/-- Witness for C14: the field `d` of the demo value is its bytes 12 to 15. -/
theorem ResolveMember_slices_member_witness :
    12 + 4 ≤ demoValue.data.length
      ∧ ∃ out : ExprValue,
          ResolveMember demoValue (some { name := "d", member_location := 12, type := demoInt })
              = Except.ok out
            ∧ out.type = demoInt
            ∧ out.data = (demoValue.data.drop 12).take 4
            ∧ out.data.length = 4
            ∧ ∀ i, i < 4 → out.data[i]? = demoValue.data[12 + i]? :=
  ⟨by decide,
   ResolveMember_slices_member demoValue
     { name := "d", member_location := 12, type := demoInt } (by decide)⟩

/-- C15: for every base value, ResolveMember with a null DataMember returns an
error, of the not-found kind, and no value. -/
theorem ResolveMember_null_member (base : ExprValue) :
    ResolveMember base none = Except.error Err.nullMember
      ∧ Err.nullMember.kind = ErrKind.notFound
      ∧ ∀ out : ExprValue, ResolveMember base none ≠ Except.ok out := by
  refine ⟨rfl, rfl, ?_⟩
  intro out h
  cases h

mutual
theorem SymType.FindMember_none : ∀ (t : SymType) (name : String) (offset : Nat),
    t.FindMember name offset = none ↔ t.declares name = false
  | SymType.base_type _ _, _, _ => by simp [SymType.FindMember, SymType.declares]
  | SymType.pointer_to _, _, _ => by simp [SymType.FindMember, SymType.declares]
  | SymType.collection _ _ members bases, name, offset => by
    have ih := InheritedFromList.FindMember_bases_none bases name offset
    simp only [SymType.FindMember, SymType.declares]
    cases hf : findDataMember members.toList name with
    | none =>
      simp only [findDataMember, List.find?_eq_none] at hf
      simp only [ih, Bool.or_eq_false_iff, List.any_eq_false]
      constructor
      · intro h; exact ⟨fun m hm => by simpa using hf m hm, h⟩
      · intro h; exact h.2
    | some m =>
      have hm := List.find?_some hf
      have hmem := List.mem_of_find?_eq_some hf
      simp only [Bool.or_eq_false_iff, List.any_eq_false]
      constructor
      · intro h; cases h
      · intro h; exact absurd hm (h.1 m hmem)
theorem InheritedFromList.FindMember_bases_none : ∀ (bases : InheritedFromList) (name : String)
    (offset : Nat), bases.FindMember name offset = none ↔ bases.declares name = false
  | InheritedFromList.nil, _, _ => by
    simp [InheritedFromList.FindMember, InheritedFromList.declares]
  | InheritedFromList.cons from_ offset_ rest, name, offset => by
    have ih1 := SymType.FindMember_none from_ name (offset + offset_)
    have ih2 := InheritedFromList.FindMember_bases_none rest name offset
    simp only [InheritedFromList.FindMember, InheritedFromList.declares, Bool.or_eq_false_iff]
    cases hf : from_.FindMember name (offset + offset_) with
    | none => simp only [ih2]; exact ⟨fun h => ⟨ih1.1 hf, h⟩, fun h => h.2⟩
    | some r =>
      constructor
      · intro h; cases h
      · intro h; rw [ih1.2 h.1] at hf; cases hf
end

theorem InheritedFromList.FindMember_first : ∀ (bases : InheritedFromList)
    (before : List InheritedFrom) (b : InheritedFrom) (after : List InheritedFrom)
    (name : String) (offset : Nat) (r : DataMember × Nat),
    bases.toList = before ++ b :: after →
    (∀ x ∈ before, x.from_.declares name = false) →
    b.from_.FindMember name (offset + b.offset_) = some r →
    bases.FindMember name offset = some r
  | InheritedFromList.nil, before, b, after, _, _, _, hsplit, _, _ => by
    simp [InheritedFromList.toList] at hsplit
  | InheritedFromList.cons from_ offset_ rest, before, b, after, name, offset, r, hsplit,
      hbefore, hfound => by
    simp only [InheritedFromList.toList] at hsplit
    cases before with
    | nil =>
      simp only [List.nil_append, List.cons.injEq] at hsplit
      obtain ⟨hb, _⟩ := hsplit
      subst hb
      simp only [InheritedFromList.FindMember]
      simp only [InheritedFrom.construct] at hfound
      rw [hfound]
    | cons x before1 =>
      simp only [List.cons_append, List.cons.injEq] at hsplit
      obtain ⟨hx, hrest⟩ := hsplit
      have hnone : from_.FindMember name (offset + offset_) = none := by
        apply (SymType.FindMember_none from_ name (offset + offset_)).2
        have := hbefore x (List.mem_cons_self _ _)
        rw [← hx] at this
        exact this
      simp only [InheritedFromList.FindMember, hnone]
      exact InheritedFromList.FindMember_first rest before1 b after name offset r hrest
        (fun y hy => hbefore y (List.mem_cons_of_mem _ hy)) hfound

/-- C16: when the type of the value declares no field called `name` itself and the
first of its direct bases to declare one (itself or by inheritance) is a class
that has the field among its own, ResolveMember by name succeeds and gives the
bytes at the offset of that base plus the offset of the field, in the width of the
field; and the lookup fails, with an error of the not-found kind, exactly when
neither the type nor a class it inherits from declares a field called `name`. -/
theorem ResolveMemberByName_searches_bases (data : List Nat) (member_name : String) :
    (∀ (type_name : String) (size : Nat) (members : DataMemberList) (bases : InheritedFromList)
        (before after : List InheritedFrom) (base_name : String) (base_size : Nat)
        (base_members : DataMemberList) (base_bases : InheritedFromList) (base_offset : Nat)
        (m : DataMember),
        (∀ x ∈ members.toList, x.name ≠ member_name) →
        bases.toList = before
          ++ InheritedFrom.construct
              (SymType.collection base_name base_size base_members base_bases) base_offset
            :: after →
        (∀ x ∈ before, x.from_.declares member_name = false) →
        findDataMember base_members.toList member_name = some m →
        ResolveMemberByName
            { type := SymType.collection type_name size members bases, data := data } member_name
          = Except.ok { type := m.type,
                        data := (data.drop (base_offset + m.member_location)).take
                          m.type.byte_size })
      ∧ ∀ type : SymType,
          (∃ err, ResolveMemberByName { type := type, data := data } member_name
              = Except.error err ∧ err.kind = ErrKind.notFound)
            ↔ type.declares member_name = false := by
  constructor
  · intro type_name size members bases before after base_name base_size base_members
      base_bases base_offset m hown hsplit hbefore hfield
    have hnone : findDataMember members.toList member_name = none := by
      simp only [findDataMember, List.find?_eq_none]
      intro x hx
      simpa using hown x hx
    have hbase : (InheritedFrom.construct
          (SymType.collection base_name base_size base_members base_bases)
          base_offset).from_.FindMember member_name
          (0 + (InheritedFrom.construct
            (SymType.collection base_name base_size base_members base_bases)
            base_offset).offset_) = some (m, 0 + base_offset) := by
      simp only [InheritedFrom.construct, SymType.FindMember, hfield]
    have hfind : (SymType.collection type_name size members bases).FindMember member_name 0
        = some (m, 0 + base_offset) := by
      simp only [SymType.FindMember, hnone]
      exact InheritedFromList.FindMember_first bases before _ after member_name 0 _ hsplit
        hbefore hbase
    simp only [ResolveMemberByName, hfind, sliceBytes, Nat.zero_add]
  · intro type
    constructor
    · rintro ⟨err, herr, _⟩
      apply (SymType.FindMember_none type member_name 0).1
      cases hf : type.FindMember member_name 0 with
      | none => rfl
      | some r =>
        simp only [ResolveMemberByName, hf] at herr
        cases herr
    · intro hdecl
      have hf := (SymType.FindMember_none type member_name 0).2 hdecl
      exact ⟨Err.memberNotFound member_name, by simp only [ResolveMemberByName, hf], rfl⟩

/-- Lookup by name on the demo value: `b` is declared on the direct base (offset 4,
field offset 4), `g` on the base of the base (offsets 4 + 0, field offset 0), and
there is no field `zz` anywhere. -/
theorem demo_ResolveMemberByName :
    ResolveMemberByName demoValue "b" = Except.ok { type := demoInt, data := [18, 19, 20, 21] }
      ∧ ResolveMemberByName demoValue "g"
          = Except.ok { type := demoInt, data := [14, 15, 16, 17] }
      ∧ ResolveMemberByName demoValue "d"
          = Except.ok { type := demoInt, data := [22, 23, 24, 25] }
      ∧ ResolveMemberByName demoValue "zz" = Except.error (Err.memberNotFound "zz")
      ∧ demoDerived.declares "zz" = false := by
  decide

/-- C17: for a base class edge built by the constructor of InheritedFrom from a
class and an offset, ResolveInherited gives the sub-value of that class, the bytes
of the size of the class at that offset, when the edge is one of the direct bases
of the type of the value; when it is not (as for a base of a base) it gives no
value but an error, the one for a base that is not direct. -/
theorem ResolveInherited_direct_base_only (value : ExprValue) (base : SymType) (offset : Nat) :
    (InheritedFrom.construct base offset ∈ value.type.inherited_from →
        ResolveInherited value (InheritedFrom.construct base offset)
          = Except.ok { type := base, data := (value.data.drop offset).take base.byte_size })
      ∧ (InheritedFrom.construct base offset ∉ value.type.inherited_from →
          ResolveInherited value (InheritedFrom.construct base offset)
              = Except.error Err.notDirectBase
            ∧ ∀ out : ExprValue,
                ResolveInherited value (InheritedFrom.construct base offset) ≠ Except.ok out) := by
  constructor
  · intro h
    unfold ResolveInherited
    rw [if_pos h]
    rfl
  · intro h
    have herr : ResolveInherited value (InheritedFrom.construct base offset)
        = Except.error Err.notDirectBase := by
      unfold ResolveInherited
      rw [if_neg h]
    refine ⟨herr, ?_⟩
    intro out hout
    rw [herr] at hout
    cases hout

/-- Base-class projection on the demo value: `Base` is a direct base at offset 4;
`Grand` is a base of `Base` only, and asking for it on the `Derived` value is an
error, while it resolves on the `Base` sub-value, one level at a time. -/
theorem demo_ResolveInherited :
    ResolveInherited demoValue (InheritedFrom.construct demoBase 4)
        = Except.ok { type := demoBase, data := [14, 15, 16, 17, 18, 19, 20, 21] }
      ∧ ResolveInherited demoValue (InheritedFrom.construct demoGrand 0)
        = Except.error Err.notDirectBase
      ∧ ResolveInherited { type := demoBase, data := [14, 15, 16, 17, 18, 19, 20, 21] }
          (InheritedFrom.construct demoGrand 0)
        = Except.ok { type := demoGrand, data := [14, 15, 16, 17] } := by
  decide

/-- C18: for every value holding a pointer p and every data member with offset o
and a type of width w, ResolveMemberByPointer asks for exactly one memory read, of
w bytes at address p + o, and calls the callback exactly once: with the value
made of the type of the member and the bytes read when the read succeeds, and
with the error of the read when it fails. -/
theorem ResolveMemberByPointer_single_read (memory : MemoryRead → Except Err (List Nat))
    (base_ptr : ExprValue) (member : DataMember) :
    (ResolveMemberByPointer memory base_ptr (some member)).reads
        = [{ address := pointerValue base_ptr.data + member.member_location,
             size := member.type.byte_size }]
      ∧ (ResolveMemberByPointer memory base_ptr (some member)).callbacks.length = 1
      ∧ (∀ bytes, memory { address := pointerValue base_ptr.data + member.member_location,
                           size := member.type.byte_size } = Except.ok bytes →
          (ResolveMemberByPointer memory base_ptr (some member)).callbacks
            = [Except.ok { type := member.type, data := bytes }])
      ∧ (∀ err, memory { address := pointerValue base_ptr.data + member.member_location,
                         size := member.type.byte_size } = Except.error err →
          (ResolveMemberByPointer memory base_ptr (some member)).callbacks
            = [Except.error err]) := by
  cases hm : memory { address := pointerValue base_ptr.data + member.member_location,
                      size := member.type.byte_size } with
  | error err =>
    have hout : ResolveMemberByPointer memory base_ptr (some member)
        = { reads := [{ address := pointerValue base_ptr.data + member.member_location,
                        size := member.type.byte_size }],
            callbacks := [Except.error err] } := by
      unfold ResolveMemberByPointer
      simp only [hm]
    rw [hout]
    refine ⟨rfl, rfl, ?_, ?_⟩
    · intro bytes hb
      cases hb
    · intro e he
      cases he
      rfl
  | ok bytes =>
    have hout : ResolveMemberByPointer memory base_ptr (some member)
        = { reads := [{ address := pointerValue base_ptr.data + member.member_location,
                        size := member.type.byte_size }],
            callbacks := [Except.ok { type := member.type, data := bytes }] } := by
      unfold ResolveMemberByPointer
      simp only [hm]
    rw [hout]
    refine ⟨rfl, rfl, ?_, ?_⟩
    · intro b hb
      cases hb
      rfl
    · intro e he
      cases he

/-- Resolution through the demo pointer (address 0x1000): the field `d` at offset 12
is read with one request of 4 bytes at 0x100c; through a pointer beyond the mapped
memory the error of the read reaches the callback. -/
theorem demo_ResolveMemberByPointer :
    pointerValue demoPointer.data = 4096
      ∧ (ResolveMemberByPointer demoMemory demoPointer
          (some { name := "d", member_location := 12, type := demoInt })).reads
        = [{ address := 4108, size := 4 }]
      ∧ (ResolveMemberByPointer demoMemory demoPointer
          (some { name := "d", member_location := 12, type := demoInt })).callbacks
        = [Except.ok { type := demoInt, data := [12, 13, 14, 15] }]
      ∧ (ResolveMemberByPointer demoMemory
          { type := SymType.pointer_to demoDerived, data := [0, 32, 0, 0, 0, 0, 0, 0] }
          (some { name := "d", member_location := 12, type := demoInt })).callbacks
        = [Except.error (Err.memoryRead 8204 4)] := by
  decide

/-! ### Disassembler -/

/-- The toy decoder at work: without a limit the whole buffer is consumed in four
entries, the undecodable byte as "data" although the options switch it off; with
a limit of two the call stops after two instructions and two bytes; with a limit
of nine it stops when the buffer ends. -/
theorem demo_DisassembleMany :
    Disassembler.DisassembleMany demoArch [144, 7, 184, 1, 0, 0, 0, 144] 4096 demoQuiet 0 []
        = some { consumed := 8, instruction_count := 4,
                 out := [{ address := none, bytes := none, text := "nop" },
                         { address := none, bytes := none, text := "data" },
                         { address := none, bytes := none, text := "mov" },
                         { address := none, bytes := none, text := "nop" }] }
      ∧ (Disassembler.DisassembleMany demoArch [144, 7, 184, 1, 0, 0, 0, 144] 4096 demoQuiet 2
          []).map (fun r => (r.consumed, r.instruction_count)) = some (2, 2)
      ∧ (Disassembler.DisassembleMany demoArch [144, 7, 184, 1, 0, 0, 0, 144] 4096 demoQuiet 9
          []).map (fun r => (r.consumed, r.instruction_count)) = some (8, 4) := by
  decide

/-- C20: on an instruction the decoder cannot decode, DisassembleOne returns 0 and
leaves the output as it is when options.emit_undecodable is false; when it is true
it appends one entry, whose text is "data", and returns the decode unit cut to the
length of the buffer, which is the decode unit itself, a positive number, when
the buffer holds at least one decode unit. -/
theorem DisassembleOne_undecodable (arch : ArchInfo) (data : List Nat) (address : Nat)
    (options : Disassembler.Options) (out : List OutputEntry)
    (hundecodable : arch.decode data address = none) :
    (options.emit_undecodable = false →
        Disassembler.DisassembleOne arch data address options out = (0, out))
      ∧ (options.emit_undecodable = true →
          (Disassembler.DisassembleOne arch data address options out).1
              = min data.length arch.instr_align
            ∧ (∃ entry : OutputEntry, entry.text = "data"
                ∧ (Disassembler.DisassembleOne arch data address options out).2
                  = out ++ [entry])
            ∧ (0 < arch.instr_align → arch.instr_align ≤ data.length →
                (Disassembler.DisassembleOne arch data address options out).1 = arch.instr_align
                  ∧ 0 < (Disassembler.DisassembleOne arch data address options out).1)) := by
  unfold Disassembler.DisassembleOne
  rw [hundecodable]
  constructor
  · intro h
    simp only [h, Bool.false_eq_true, if_false]
  · intro h
    simp only [h, if_true]
    refine ⟨trivial, ⟨_, rfl, rfl⟩, ?_⟩
    intro hpos hle
    rw [Nat.min_eq_right hle]
    exact ⟨rfl, hpos⟩

/-- Witness for C20: the byte 7 does not decode with the toy decoder. -/
theorem DisassembleOne_undecodable_witness :
    demoArch.decode [7, 144] 4096 = none
      ∧ Disassembler.DisassembleOne demoArch [7, 144] 4096 demoQuiet [] = (0, [])
      ∧ Disassembler.DisassembleOne demoArch [7, 144] 4096 {} []
          = (1, [{ address := none, bytes := none, text := "data" }]) :=
  ⟨rfl,
   (DisassembleOne_undecodable demoArch [7, 144] 4096 demoQuiet [] rfl).1 rfl,
   by decide⟩

/-! ### Frame properties of the registry and of the lists -/

theorem StdMap.find_none_of_lt {β : Type} (m : StdMap β) (k : Nat)
    (h : ∀ kv ∈ m, k < kv.1) : StdMap.find m k = none := by
  induction m with
  | nil => rfl
  | cons hd tl ih =>
    obtain ⟨k', v'⟩ := hd
    have hk : k < k' := h (k', v') (List.mem_cons_self _ _)
    simp only [StdMap.find]
    rw [if_neg (by omega)]
    exact ih (fun kv hkv => h kv (List.mem_cons_of_mem _ hkv))

theorem StdMap.ordered_tail {β : Type} (hd : Nat × β) (tl : StdMap β)
    (h : StdMap.ordered (hd :: tl)) :
    StdMap.ordered tl ∧ ∀ kv ∈ tl, hd.1 < kv.1 := by
  unfold StdMap.ordered at h
  rw [List.map_cons, List.pairwise_cons] at h
  refine ⟨h.2, ?_⟩
  intro kv hkv
  exact h.1 kv.1 (List.mem_map.2 ⟨kv, hkv, rfl⟩)

theorem StdMap.find_erase_self {β : Type} (m : StdMap β) (k : Nat) (h : StdMap.ordered m) :
    StdMap.find (StdMap.erase m k) k = none := by
  induction m with
  | nil => rfl
  | cons hd tl ih =>
    obtain ⟨k', v'⟩ := hd
    obtain ⟨htl, hlt⟩ := StdMap.ordered_tail _ _ h
    simp only [StdMap.erase]
    by_cases hk : k' = k
    · rw [if_pos hk]
      subst hk
      exact StdMap.find_none_of_lt tl k' hlt
    · rw [if_neg hk]
      simp only [StdMap.find]
      rw [if_neg hk]
      exact ih htl

theorem StdMap.find_erase_ne {β : Type} (m : StdMap β) (k j : Nat) (hj : j ≠ k) :
    StdMap.find (StdMap.erase m k) j = StdMap.find m j := by
  induction m with
  | nil => rfl
  | cons hd tl ih =>
    obtain ⟨k', v'⟩ := hd
    simp only [StdMap.erase]
    by_cases hk : k' = k
    · rw [if_pos hk]
      simp only [StdMap.find]
      rw [if_neg (by omega)]
    · rw [if_neg hk]
      simp only [StdMap.find]
      rw [ih]

theorem StdMap.find_assign_ne {β : Type} (m : StdMap β) (k j : Nat) (v : β) (hj : j ≠ k) :
    StdMap.find (StdMap.assign m k v) j = StdMap.find m j := by
  induction m with
  | nil =>
    simp only [StdMap.assign, StdMap.find]
    rw [if_neg (by omega)]
  | cons hd tl ih =>
    obtain ⟨k', v'⟩ := hd
    simp only [StdMap.assign]
    split_ifs with h1 h2
    · simp only [StdMap.find]
      rw [if_neg (by omega)]
    · subst h2
      simp only [StdMap.find]
      rw [if_neg (by omega), if_neg (by omega)]
    · simp only [StdMap.find]
      rw [ih]

theorem StdMap.erase_of_lt {β : Type} (m : StdMap β) (k : Nat)
    (h : ∀ kv ∈ m, k < kv.1) : StdMap.erase m k = m := by
  induction m with
  | nil => rfl
  | cons hd tl ih =>
    obtain ⟨k', v'⟩ := hd
    have hk : k < k' := h (k', v') (List.mem_cons_self _ _)
    simp only [StdMap.erase]
    rw [if_neg (by omega), ih (fun kv hkv => h kv (List.mem_cons_of_mem _ hkv))]

theorem StdMap.erase_assign {β : Type} (m : StdMap β) (k : Nat) (v : β)
    (h : StdMap.ordered m) : StdMap.erase (StdMap.assign m k v) k = StdMap.erase m k := by
  induction m with
  | nil => simp [StdMap.assign, StdMap.erase]
  | cons hd tl ih =>
    obtain ⟨k', v'⟩ := hd
    obtain ⟨htl, hlt⟩ := StdMap.ordered_tail _ _ h
    simp only [StdMap.assign]
    split_ifs with h1 h2
    · have hall : ∀ kv ∈ ((k', v') :: tl : StdMap β), k < kv.1 := by
        intro kv hkv
        rcases List.mem_cons.1 hkv with rfl | hmem
        · exact h1
        · exact Nat.lt_trans h1 (hlt kv hmem)
      rw [StdMap.erase_of_lt _ k hall]
      simp [StdMap.erase]
    · subst h2
      simp [StdMap.erase]
    · simp only [StdMap.erase]
      rw [if_neg (fun h3 => h2 h3.symm), if_neg (fun h3 => h2 h3.symm), ih htl]

/-- C26: in a registry that is a proper map (keys in increasing order), deleting
a registered breakpoint b returns normally, makes the lookup of the id of b give
none, leaves the lookup of every other id as it was, and leaves the target list
and the job-context list as they were; when the id of b is not registered the
call leaves the registry as it was and sends nothing (it ends in the fatal
failure of FXL_NOTREACHED). -/
theorem DeleteBreakpoint_frame_effect (s : SystemImpl) (b : BreakpointImpl)
    (hmap : StdMap.ordered s.breakpoints_) :
    (s.BreakpointImplForId b.backend_id = some b →
        (s.DeleteBreakpoint b).1 = Except.ok ()
          ∧ (s.DeleteBreakpoint b).2.BreakpointImplForId b.backend_id = none
          ∧ (∀ j, j ≠ b.backend_id →
              (s.DeleteBreakpoint b).2.BreakpointImplForId j = s.BreakpointImplForId j)
          ∧ (s.DeleteBreakpoint b).2.targets_ = s.targets_
          ∧ (s.DeleteBreakpoint b).2.job_contexts_ = s.job_contexts_)
      ∧ (s.BreakpointImplForId b.backend_id = none →
          (s.DeleteBreakpoint b).2.breakpoints_ = s.breakpoints_
            ∧ (s.DeleteBreakpoint b).2.trace = s.trace
            ∧ (s.DeleteBreakpoint b).2 = s) := by
  constructor
  · intro hreg
    have hbp : (s.DeleteBreakpoint b).2.breakpoints_ =
        StdMap.erase s.breakpoints_ b.backend_id := by
      rw [DeleteBreakpoint_found s b b hreg]
      by_cases hi : b.is_internal = true
      · simp [hi]
      · simp [hi, SystemImpl.notifyObservers]
    have hok : (s.DeleteBreakpoint b).1 = Except.ok () := by
      rw [DeleteBreakpoint_found s b b hreg]
    refine ⟨hok, ?_, ?_, (DeleteBreakpoint_frame s b).1, (DeleteBreakpoint_frame s b).2.1⟩
    · unfold SystemImpl.BreakpointImplForId
      rw [hbp]
      exact StdMap.find_erase_self _ _ hmap
    · intro j hj
      unfold SystemImpl.BreakpointImplForId
      rw [hbp]
      exact StdMap.find_erase_ne _ _ _ hj
  · intro hnone
    rw [DeleteBreakpoint_missing s b hnone]
    exact ⟨rfl, rfl, rfl⟩

/-- Witness for C26: the registry of the demo System is in key order. -/
theorem DeleteBreakpoint_frame_effect_witness :
    StdMap.ordered demoSystem.breakpoints_
      ∧ (demoSystem.DeleteBreakpoint demoUserBreakpoint).2.BreakpointImplForId 1 = none
      ∧ (demoSystem.DeleteBreakpoint demoUserBreakpoint).2.BreakpointImplForId 2
          = some demoInternalBreakpoint
      ∧ (demoSystem.DeleteBreakpoint { backend_id := 9, is_internal := false }).2 = demoSystem :=
  ⟨by decide,
   ((DeleteBreakpoint_frame_effect demoSystem demoUserBreakpoint (by decide)).1 rfl).2.1,
   by decide,
   ((DeleteBreakpoint_frame_effect demoSystem { backend_id := 9, is_internal := false }
      (by decide)).2 rfl).2.2⟩

/-- C27: in a registry that is a proper map, the breakpoint b that
CreateNewBreakpoint (or CreateNewInternalBreakpoint) returns is what
BreakpointImplForId gives for its id afterwards, its is_internal flag is false
(or true), the lookup of every other id is as before, and deleting b right
afterwards returns normally and makes the lookup of its id give none again. -/
theorem create_then_lookup_then_delete (s : SystemImpl)
    (hmap : StdMap.ordered s.breakpoints_) :
    (s.CreateNewBreakpoint.2.BreakpointImplForId s.CreateNewBreakpoint.1.backend_id
          = some s.CreateNewBreakpoint.1
      ∧ s.CreateNewBreakpoint.1.is_internal = false
      ∧ (∀ j, j ≠ s.CreateNewBreakpoint.1.backend_id →
          s.CreateNewBreakpoint.2.BreakpointImplForId j = s.BreakpointImplForId j)
      ∧ (s.CreateNewBreakpoint.2.DeleteBreakpoint s.CreateNewBreakpoint.1).1 = Except.ok ()
      ∧ (s.CreateNewBreakpoint.2.DeleteBreakpoint s.CreateNewBreakpoint.1).2.BreakpointImplForId
          s.CreateNewBreakpoint.1.backend_id = none)
    ∧ (s.CreateNewInternalBreakpoint.2.BreakpointImplForId
          s.CreateNewInternalBreakpoint.1.backend_id = some s.CreateNewInternalBreakpoint.1
      ∧ s.CreateNewInternalBreakpoint.1.is_internal = true
      ∧ (∀ j, j ≠ s.CreateNewInternalBreakpoint.1.backend_id →
          s.CreateNewInternalBreakpoint.2.BreakpointImplForId j = s.BreakpointImplForId j)
      ∧ (s.CreateNewInternalBreakpoint.2.DeleteBreakpoint
          s.CreateNewInternalBreakpoint.1).1 = Except.ok ()
      ∧ (s.CreateNewInternalBreakpoint.2.DeleteBreakpoint
          s.CreateNewInternalBreakpoint.1).2.BreakpointImplForId
            s.CreateNewInternalBreakpoint.1.backend_id = none) := by
  have key : ∀ (s1 : SystemImpl) (b : BreakpointImpl),
      s1.breakpoints_ = StdMap.assign s.breakpoints_ b.backend_id b →
      s1.BreakpointImplForId b.backend_id = some b
        ∧ (∀ j, j ≠ b.backend_id → s1.BreakpointImplForId j = s.BreakpointImplForId j)
        ∧ (s1.DeleteBreakpoint b).1 = Except.ok ()
        ∧ (s1.DeleteBreakpoint b).2.BreakpointImplForId b.backend_id = none := by
    intro s1 b hb
    have hfind : s1.BreakpointImplForId b.backend_id = some b := by
      unfold SystemImpl.BreakpointImplForId
      rw [hb]
      exact StdMap.find_assign_self _ _ _
    have hbp : (s1.DeleteBreakpoint b).2.breakpoints_ =
        StdMap.erase s1.breakpoints_ b.backend_id := by
      rw [DeleteBreakpoint_found s1 b b hfind]
      by_cases hi : b.is_internal = true
      · simp [hi]
      · simp [hi, SystemImpl.notifyObservers]
    refine ⟨hfind, ?_, ?_, ?_⟩
    · intro j hj
      unfold SystemImpl.BreakpointImplForId
      rw [hb]
      exact StdMap.find_assign_ne _ _ _ _ hj
    · rw [DeleteBreakpoint_found s1 b b hfind]
    · unfold SystemImpl.BreakpointImplForId
      rw [hbp, hb, StdMap.erase_assign _ _ _ hmap]
      exact StdMap.find_erase_self _ _ hmap
  obtain ⟨a1, a2, a3, a4⟩ := key s.CreateNewBreakpoint.2 s.CreateNewBreakpoint.1
    (CreateNewBreakpoint_breakpoints s)
  obtain ⟨b1, b2, b3, b4⟩ := key s.CreateNewInternalBreakpoint.2 s.CreateNewInternalBreakpoint.1
    (CreateNewInternalBreakpoint_breakpoints s)
  exact ⟨⟨a1, rfl, a2, a3, a4⟩, ⟨b1, rfl, b2, b3, b4⟩⟩

/-- Witness for C27: creation on the demo System hands out id 3. -/
theorem create_then_lookup_then_delete_witness :
    StdMap.ordered demoSystem.breakpoints_
      ∧ demoSystem.CreateNewBreakpoint.2.BreakpointImplForId 3
          = some { backend_id := 3, is_internal := false }
      ∧ (demoSystem.CreateNewBreakpoint.2.DeleteBreakpoint
          { backend_id := 3, is_internal := false }).2.BreakpointImplForId 3 = none
      ∧ demoSystem.CreateNewInternalBreakpoint.2.BreakpointImplForId 3
          = some { backend_id := 3, is_internal := true } :=
  ⟨by decide,
   (create_then_lookup_then_delete demoSystem (by decide)).1.1,
   (create_then_lookup_then_delete demoSystem (by decide)).1.2.2.2.2,
   (create_then_lookup_then_delete demoSystem (by decide)).2.1⟩

/-- C30: GetTargets() lists the targets in creation order: after CreateNewTarget,
with or without a clone, it is the list it was before followed by the target that
was returned, and the job-context list and the breakpoint registry are as they
were; likewise CreateNewJobContext appends the job context it returns to
GetJobContexts() and leaves the target list and the registry as they were. -/
theorem create_appends_in_order (s : SystemImpl) (target_clone : Option TargetImpl)
    (job_clone : Option JobContextImpl) :
    ((s.CreateNewTarget target_clone).2.GetTargets
          = s.GetTargets ++ [(s.CreateNewTarget target_clone).1]
      ∧ (s.CreateNewTarget target_clone).2.job_contexts_ = s.job_contexts_
      ∧ (s.CreateNewTarget target_clone).2.GetJobContexts = s.GetJobContexts
      ∧ (s.CreateNewTarget target_clone).2.breakpoints_ = s.breakpoints_)
    ∧ ((s.CreateNewJobContext job_clone).2.GetJobContexts
          = s.GetJobContexts ++ [(s.CreateNewJobContext job_clone).1]
      ∧ (s.CreateNewJobContext job_clone).2.targets_ = s.targets_
      ∧ (s.CreateNewJobContext job_clone).2.GetTargets = s.GetTargets
      ∧ (s.CreateNewJobContext job_clone).2.breakpoints_ = s.breakpoints_) := by
  constructor
  · cases target_clone <;>
      simp [SystemImpl.CreateNewTarget, SystemImpl.AddNewTarget, SystemImpl.notifyObservers,
        SystemImpl.GetTargets, SystemImpl.GetJobContexts, TargetImpl.make, TargetImpl.Clone]
  · cases job_clone <;>
      simp [SystemImpl.CreateNewJobContext, SystemImpl.AddNewJobContext,
        SystemImpl.notifyObservers, SystemImpl.GetTargets, SystemImpl.GetJobContexts,
        JobContextImpl.make, JobContextImpl.Clone]

end zxdb

/-! # Theorems on the wlan MLME dispatcher -/

namespace wlan

/-- C24: on a dispatcher without an MLME, every packet that HandlePacket accepts
(it meets the assertion at the head of the function: its peer is not kUnknown, or
debug assertions are compiled out) and whose peer is not kService makes
HandlePacket return ZX_OK with the packet counted in any_packet.in and
any_packet.drop and no call made to any handler; and every packet whose peer is
kService is counted in any_packet.in and any_packet.out and handed to
HandleSvcPacket, whose result is the result of HandlePacket. -/
theorem HandlePacket_without_mlme (env : Env) (d : Dispatcher) (packet : Packet)
    (hmlme : d.mlme_ = none) :
    ((env.debug_asserts = false ∨ packet.peer ≠ Peer.kUnknown) →
        packet.peer ≠ Peer.kService →
        d.HandlePacket env packet = (Except.ok ZX_OK, d.incAnyIn.incAnyDrop)
          ∧ (d.HandlePacket env packet).2.trace = d.trace
          ∧ (d.HandlePacket env packet).2.stats_.any_packet.drop = d.stats_.any_packet.drop + 1
          ∧ (d.HandlePacket env packet).2.stats_.any_packet.out = d.stats_.any_packet.out)
      ∧ (packet.peer = Peer.kService →
          d.HandlePacket env packet = d.incAnyIn.incAnyOut.HandleSvcPacket env packet) := by
  have hnone : d.incAnyIn.mlme_.isNone = true := by
    simp [Dispatcher.incAnyIn, hmlme]
  constructor
  · intro hassert hpeer
    have hpass : ZX_DEBUG_ASSERT env (packet.peer != Peer.kUnknown) = Except.ok () := by
      unfold ZX_DEBUG_ASSERT
      rcases hassert with h | h
      · simp [h]
      · simp [h]
    have hsvc : (packet.peer == Peer.kService) = false := by simpa using hpeer
    have hres : d.HandlePacket env packet = (Except.ok ZX_OK, d.incAnyIn.incAnyDrop) := by
      unfold Dispatcher.HandlePacket
      simp only [hpass, hnone, hsvc, Bool.not_false, Bool.and_self, if_true]
    rw [hres]
    exact ⟨rfl, rfl, rfl, rfl⟩
  · intro hpeer
    have hpass : ZX_DEBUG_ASSERT env (packet.peer != Peer.kUnknown) = Except.ok () := by
      unfold ZX_DEBUG_ASSERT
      simp [hpeer]
    have hsvc : (packet.peer == Peer.kService) = true := by simpa using hpeer
    unfold Dispatcher.HandlePacket
    simp only [hpass, hnone, hsvc, Bool.not_true, Bool.and_false, Bool.false_eq_true, if_false]
    rw [hpeer]

/-- Witness for C24: a frame from the wlan peer, and a service packet, on the
dispatcher without an MLME. -/
theorem HandlePacket_without_mlme_witness :
    demoIdle.mlme_ = none
      ∧ (demoIdle.HandlePacket demoEnv { peer := Peer.kWlan, data := [2, 0] }).1
          = Except.ok ZX_OK
      ∧ (demoIdle.HandlePacket demoEnv { peer := Peer.kWlan, data := [2, 0] }).2.trace = []
      ∧ (demoIdle.HandlePacket demoEnv { peer := Peer.kWlan, data := [2, 0] }).2.stats_.any_packet
          = { in_ := 1, out := 0, drop := 1 }
      ∧ demoIdle.HandlePacket demoEnv { peer := Peer.kService, data := [5, 0, 99] }
          = demoIdle.incAnyIn.incAnyOut.HandleSvcPacket demoEnv
              { peer := Peer.kService, data := [5, 0, 99] } :=
  ⟨rfl,
   congrArg Prod.fst ((HandlePacket_without_mlme demoEnv demoIdle
      { peer := Peer.kWlan, data := [2, 0] } rfl).1 (Or.inr (by decide)) (by decide)).1,
   ((HandlePacket_without_mlme demoEnv demoIdle
      { peer := Peer.kWlan, data := [2, 0] } rfl).1 (Or.inr (by decide)) (by decide)).2.1,
   by decide,
   (HandlePacket_without_mlme demoEnv demoIdle
      { peer := Peer.kService, data := [5, 0, 99] } rfl).2 rfl⟩

/-- C25: for every service packet whose FIDL header parses and whose ordinal is none
of the ordinals that HandleSvcPacket compares it with, HandleSvcPacket returns
ZX_ERR_NOT_SUPPORTED and leaves the dispatcher as it was: no call is made to the
MLME or to the device. -/
theorem HandleSvcPacket_unknown_ordinal (env : Env) (d : Dispatcher) (packet : Packet)
    (hdr : fidl_message_header_t) (hparse : env.FromBytes packet.data = some hdr)
    (hordinal : hdr.ordinal ∉ env.handledOrdinals) :
    d.HandleSvcPacket env packet = (Except.ok ZX_ERR_NOT_SUPPORTED, d)
      ∧ (d.HandleSvcPacket env packet).2.trace = d.trace := by
  have hres : d.HandleSvcPacket env packet = (Except.ok ZX_ERR_NOT_SUPPORTED, d) := by
    simp only [Env.handledOrdinals, List.mem_cons, List.mem_singleton, not_or,
      List.not_mem_nil, not_false_eq_true, and_true] at hordinal
    obtain ⟨h1, h2, h3, h4, h5, h6, h7, h8, h9, h10, h11, h12, h13, h14, h15, h16⟩ := hordinal
    unfold Dispatcher.HandleSvcPacket
    simp only [hparse, h1, h2, h3, h4, h5, h6, h7, h8, h9, h10, h11, h12, h13, h14, h15, h16,
      if_false]
  rw [hres]
  exact ⟨rfl, rfl⟩

/-- Witness for C25: ordinal 99 in the toy environment. -/
theorem HandleSvcPacket_unknown_ordinal_witness :
    demoEnv.FromBytes [5, 0, 99] = some { txid := 5, flags := 0, ordinal := 99 }
      ∧ 99 ∉ demoEnv.handledOrdinals
      ∧ (demoDispatcher.HandleSvcPacket demoEnv { peer := Peer.kService, data := [5, 0, 99] }).1
          = Except.ok ZX_ERR_NOT_SUPPORTED
      ∧ (demoDispatcher.HandleSvcPacket demoEnv
          { peer := Peer.kService, data := [5, 0, 99] }).2.trace = [] :=
  ⟨rfl, by decide,
   congrArg Prod.fst (HandleSvcPacket_unknown_ordinal demoEnv demoDispatcher
      { peer := Peer.kService, data := [5, 0, 99] } { txid := 5, flags := 0, ordinal := 99 }
      rfl (by decide)).1,
   (HandleSvcPacket_unknown_ordinal demoEnv demoDispatcher
      { peer := Peer.kService, data := [5, 0, 99] } { txid := 5, flags := 0, ordinal := 99 }
      rfl (by decide)).2⟩

/-! ### The packet counters -/

theorem mlmeHandleFramePacket_stats (d : Dispatcher) (packet : Packet) :
    (d.mlmeHandleFramePacket packet).2.stats_ = d.stats_ := by
  unfold Dispatcher.mlmeHandleFramePacket
  split <;> rfl

theorem HandleMlmeMessage_stats (env : Env) (d : Dispatcher) (kind : MlmeMsgKind)
    (packet : Packet) : (d.HandleMlmeMessage env kind packet).2.stats_ = d.stats_ := by
  unfold Dispatcher.HandleMlmeMessage
  simp only
  split
  · rfl
  · split <;> rfl

theorem HandleDeviceQueryRequest_stats (env : Env) (d : Dispatcher) :
    (d.HandleDeviceQueryRequest env).2.stats_ = d.stats_ := by
  unfold Dispatcher.HandleDeviceQueryRequest
  simp only
  split <;> rfl

theorem HandleMlmeStats_stats (env : Env) (d : Dispatcher) :
    (d.HandleMlmeStats env).2.stats_ = d.stats_ := by
  unfold Dispatcher.HandleMlmeStats
  split <;> rfl

theorem HandleMinstrelTxStats_stats (env : Env) (d : Dispatcher) (packet : Packet) (txid : Nat) :
    (d.HandleMinstrelTxStats env packet txid).2.stats_ = d.stats_ := by
  unfold Dispatcher.HandleMinstrelTxStats
  simp only
  split <;> rfl

theorem ite_stats (c : Prop) [Decidable c] (a b : Except Fatal zx_status_t × Dispatcher)
    (stats : DispatcherStats) (ha : a.2.stats_ = stats) (hb : b.2.stats_ = stats) :
    (if c then a else b).2.stats_ = stats := by
  split <;> assumption

theorem HandleSvcPacket_stats (env : Env) (d : Dispatcher) (packet : Packet) :
    (d.HandleSvcPacket env packet).2.stats_ = d.stats_ := by
  unfold Dispatcher.HandleSvcPacket
  split
  · rfl
  · have hreset : (match d.HandleMlmeMessage env MlmeMsgKind.ResetRequest packet with
        | (Except.error e, d1) => ((Except.error e, d1) : Except Fatal zx_status_t × Dispatcher)
        | (Except.ok _, d1) => (Except.ok ZX_OK, d1)).2.stats_ = d.stats_ := by
      have h := HandleMlmeMessage_stats env d MlmeMsgKind.ResetRequest packet
      split
      · next e d1 heq => rw [heq] at h; exact h
      · next v d1 heq => rw [heq] at h; exact h
    repeat' with_reducible apply ite_stats
    all_goals first
      | rfl
      | exact HandleDeviceQueryRequest_stats env d
      | exact HandleMlmeStats_stats env d
      | exact HandleMinstrelTxStats_stats env d packet _
      | exact HandleMlmeMessage_stats env d _ packet
      | exact hreset

theorem HandlePacket_counts (env : Env) (d : Dispatcher) (packet : Packet)
    (hassert : env.debug_asserts = false ∨ packet.peer ≠ Peer.kUnknown) :
    (d.HandlePacket env packet).2.stats_.any_packet.in_ = d.stats_.any_packet.in_ + 1
      ∧ (((d.HandlePacket env packet).2.stats_.any_packet.drop = d.stats_.any_packet.drop + 1
            ∧ (d.HandlePacket env packet).2.stats_.any_packet.out = d.stats_.any_packet.out)
          ∨ ((d.HandlePacket env packet).2.stats_.any_packet.drop = d.stats_.any_packet.drop
            ∧ (d.HandlePacket env packet).2.stats_.any_packet.out
              = d.stats_.any_packet.out + 1)) := by
  have hpass : ZX_DEBUG_ASSERT env (packet.peer != Peer.kUnknown) = Except.ok () := by
    unfold ZX_DEBUG_ASSERT
    rcases hassert with h | h
    · simp [h]
    · simp [h]
  unfold Dispatcher.HandlePacket
  simp only [hpass]
  split_ifs
  · exact ⟨rfl, Or.inl ⟨rfl, rfl⟩⟩
  · have hout : ∀ r : Except Fatal zx_status_t × Dispatcher,
        r.2.stats_.any_packet = d.incAnyIn.incAnyOut.stats_.any_packet →
        r.2.stats_.any_packet.in_ = d.stats_.any_packet.in_ + 1
          ∧ ((r.2.stats_.any_packet.drop = d.stats_.any_packet.drop + 1
                ∧ r.2.stats_.any_packet.out = d.stats_.any_packet.out)
              ∨ (r.2.stats_.any_packet.drop = d.stats_.any_packet.drop
                ∧ r.2.stats_.any_packet.out = d.stats_.any_packet.out + 1)) := by
      intro r hr
      rw [hr]
      exact ⟨rfl, Or.inr ⟨rfl, rfl⟩⟩
    split
    · exact hout _ (congrArg DispatcherStats.any_packet (HandleSvcPacket_stats env _ packet))
    · exact hout _ (congrArg DispatcherStats.any_packet (mlmeHandleFramePacket_stats _ packet))
    · split
      · exact hout _ rfl
      · next type _ =>
        apply hout
        rw [mlmeHandleFramePacket_stats]
        cases type <;> rfl
    · exact hout _ rfl

theorem HandlePacket_abort_or_counts (env : Env) (d : Dispatcher) (packet : Packet) :
    (d.HandlePacket env packet).2 = d
      ∨ ((d.HandlePacket env packet).2.stats_.any_packet.in_ = d.stats_.any_packet.in_ + 1
        ∧ (d.HandlePacket env packet).2.stats_.any_packet.drop
            + (d.HandlePacket env packet).2.stats_.any_packet.out
          = d.stats_.any_packet.drop + d.stats_.any_packet.out + 1) := by
  by_cases hassert : env.debug_asserts = false ∨ packet.peer ≠ Peer.kUnknown
  · right
    obtain ⟨h1, h2⟩ := HandlePacket_counts env d packet hassert
    refine ⟨h1, ?_⟩
    rcases h2 with ⟨h3, h4⟩ | ⟨h3, h4⟩ <;> omega
  · left
    have hfail : ZX_DEBUG_ASSERT env (packet.peer != Peer.kUnknown)
        = Except.error Fatal.debug_assert := by
      unfold ZX_DEBUG_ASSERT
      simp only [not_or, Bool.not_eq_false, ne_eq, not_not] at hassert
      simp [hassert.1, hassert.2]
    unfold Dispatcher.HandlePacket
    simp only [hfail]

theorem HandlePackets_balance (env : Env) (packets : List Packet) : ∀ d : Dispatcher,
    d.stats_.any_packet.in_ = d.stats_.any_packet.drop + d.stats_.any_packet.out →
    (d.HandlePackets env packets).2.stats_.any_packet.in_
      = (d.HandlePackets env packets).2.stats_.any_packet.drop
        + (d.HandlePackets env packets).2.stats_.any_packet.out := by
  induction packets with
  | nil => intro d h; exact h
  | cons packet rest ih =>
    intro d h
    have hstep : (d.HandlePacket env packet).2.stats_.any_packet.in_
        = (d.HandlePacket env packet).2.stats_.any_packet.drop
          + (d.HandlePacket env packet).2.stats_.any_packet.out := by
      rcases HandlePacket_abort_or_counts env d packet with h1 | ⟨h1, h2⟩
      · rw [h1]; exact h
      · omega
    unfold Dispatcher.HandlePackets
    split
    · next e d1 heq =>
      rw [heq] at hstep
      exact hstep
    · next v d1 heq =>
      rw [heq] at hstep
      exact ih d1 hstep

/-- C28: after ResetStats, which puts the counters of any_packet at zero, and any
sequence of HandlePacket calls the counters satisfy in = drop + out; and every
HandlePacket call adds one to in and one to exactly one of drop and out, the one
exception being a call that ends the process at the assertion at its head (a
packet whose peer is kUnknown in a build with debug assertions), which leaves the
dispatcher as it was. -/
theorem any_packet_in_eq_drop_plus_out (env : Env) (d : Dispatcher) (packets : List Packet) :
    (d.ResetStats.HandlePackets env packets).2.stats_.any_packet.in_
        = (d.ResetStats.HandlePackets env packets).2.stats_.any_packet.drop
          + (d.ResetStats.HandlePackets env packets).2.stats_.any_packet.out
      ∧ d.ResetStats.stats_.any_packet = { in_ := 0, out := 0, drop := 0 }
      ∧ ∀ (d0 : Dispatcher) (packet : Packet),
          (env.debug_asserts = true ∧ packet.peer = Peer.kUnknown
            ∧ d0.HandlePacket env packet = (Except.error Fatal.debug_assert, d0))
          ∨ ((d0.HandlePacket env packet).2.stats_.any_packet.in_ = d0.stats_.any_packet.in_ + 1
            ∧ (((d0.HandlePacket env packet).2.stats_.any_packet.drop
                  = d0.stats_.any_packet.drop + 1
                ∧ (d0.HandlePacket env packet).2.stats_.any_packet.out
                  = d0.stats_.any_packet.out)
              ∨ ((d0.HandlePacket env packet).2.stats_.any_packet.drop
                  = d0.stats_.any_packet.drop
                ∧ (d0.HandlePacket env packet).2.stats_.any_packet.out
                  = d0.stats_.any_packet.out + 1))) := by
  have hreset : d.ResetStats.stats_ = DispatcherStats.zero := by
    unfold Dispatcher.ResetStats
    simp only
    split <;> rfl
  refine ⟨HandlePackets_balance env packets d.ResetStats ?_, ?_, ?_⟩
  · rw [hreset]
    rfl
  · rw [hreset]
    rfl
  · intro d0 packet
    by_cases hassert : env.debug_asserts = false ∨ packet.peer ≠ Peer.kUnknown
    · exact Or.inr (HandlePacket_counts env d0 packet hassert)
    · simp only [not_or, Bool.not_eq_false, ne_eq, not_not] at hassert
      refine Or.inl ⟨hassert.1, hassert.2, ?_⟩
      unfold Dispatcher.HandlePacket ZX_DEBUG_ASSERT
      simp [hassert.1, hassert.2]

/-- Packets through the two toy dispatchers: with an MLME every packet goes out;
without one only the service packet does, the others are dropped. -/
theorem demo_HandlePackets :
    (demoDispatcher.ResetStats.HandlePackets demoEnv
        [{ peer := Peer.kWlan, data := [2, 0] }, { peer := Peer.kEthernet, data := [9] },
         { peer := Peer.kService, data := [5, 0, 99] }]).2.stats_.any_packet
      = { in_ := 3, out := 3, drop := 0 }
    ∧ (demoIdle.ResetStats.HandlePackets demoEnv
        [{ peer := Peer.kWlan, data := [2, 0] }, { peer := Peer.kEthernet, data := [9] },
         { peer := Peer.kService, data := [5, 0, 99] }]).2.stats_.any_packet
      = { in_ := 3, out := 1, drop := 2 }
    ∧ (demoDispatcher.ResetStats.HandlePackets demoEnv
        [{ peer := Peer.kWlan, data := [2, 0] }, { peer := Peer.kEthernet, data := [9] },
         { peer := Peer.kService, data := [5, 0, 99] }]).2.trace
      = [Event.ResetMlmeStats, Event.HandleFramePacket { peer := Peer.kWlan, data := [2, 0] },
         Event.HandleFramePacket { peer := Peer.kEthernet, data := [9] }] := by
  decide

/-! ### The device query -/

theorem pushNonZero_eq (entries : List Nat) : ∀ acc : List Nat,
    pushNonZero acc entries = acc ++ entries.filter (fun x => x != 0) := by
  induction entries with
  | nil => intro acc; simp [pushNonZero]
  | cons x rest ih =>
    intro acc
    unfold pushNonZero
    by_cases hx : x = 0
    · subst hx
      simp [ih]
    · have hb : (x != 0) = true := by simpa using hx
      rw [if_pos hx, ih, List.filter_cons, hb]
      simp

theorem bandsLoop_spec (env : Env) (info : wlan_info_t) (n : Nat) :
    ∀ (band_idx : Nat) (bands : List BandCapabilities),
    band_idx + n ≤ info.bands.length →
    bands = (info.bands.take band_idx).map (bandCapabilities env info.caps) →
    bandsLoop env info band_idx bands n
      = Except.ok ((info.bands.take (band_idx + n)).map (bandCapabilities env info.caps)) := by
  induction n with
  | zero =>
    intro band_idx bands _ hb
    simp only [bandsLoop, Nat.add_zero]
    rw [hb]
  | succ n ih =>
    intro band_idx bands hlen hb
    have hlt : band_idx < info.bands.length := by omega
    have hget : info.bands[band_idx]? = some (info.bands[band_idx]) :=
      List.getElem?_eq_getElem hlt
    unfold bandsLoop
    simp only [hget]
    have hidx : band_idx + (n + 1) = band_idx + 1 + n := by omega
    rw [hidx]
    apply ih (band_idx + 1) _ (by omega)
    rw [List.take_succ, hget, hb, List.map_append]
    rfl

/-- C29: for a device info whose num_bands does not exceed the size of its array of
bands, HandleDeviceQueryRequest sends exactly one message, a DeviceQueryConfirm,
which has num_bands bands, the band at each index built from the band info at the
same index: its basic_rates are the entries of basic_rates that are not 0, in
their order, and its channels are the entries of supported_channels.channels
that are not 0, in their order. -/
theorem HandleDeviceQueryRequest_bands (env : Env) (d : Dispatcher)
    (hbands : d.device_.ifc_info.num_bands ≤ d.device_.ifc_info.bands.length) :
    ∃ resp : DeviceQueryConfirm,
      (d.HandleDeviceQueryRequest env).2.trace
          = d.trace ++ [Event.SendServiceMsg (ServiceMsg.DeviceQueryConfirm resp)
              env.MLMEDeviceQueryConfOrdinal none]
        ∧ (d.HandleDeviceQueryRequest env).1
          = Except.ok (env.SendServiceMsg (ServiceMsg.DeviceQueryConfirm resp)
              env.MLMEDeviceQueryConfOrdinal none)
        ∧ resp.bands.length = d.device_.ifc_info.num_bands
        ∧ ∀ (i : Nat) (band_info : wlan_band_info_t), i < d.device_.ifc_info.num_bands →
            d.device_.ifc_info.bands[i]? = some band_info →
            ∃ band : BandCapabilities,
              resp.bands[i]? = some band
                ∧ band.basic_rates = band_info.basic_rates.filter (fun x => x != 0)
                ∧ band.channels
                  = band_info.supported_channels.channels.filter (fun x => x != 0)
                ∧ band.base_frequency = band_info.supported_channels.base_freq := by
  have hloop := bandsLoop_spec env d.device_.ifc_info d.device_.ifc_info.num_bands 0 []
    (by omega) (by simp)
  rw [Nat.zero_add] at hloop
  refine ⟨{ mac_addr := d.device_.ifc_info.mac_addr,
            role := if d.device_.ifc_info.mac_role = env.WLAN_MAC_ROLE_CLIENT then
                some MacRole.CLIENT
              else if d.device_.ifc_info.mac_role = env.WLAN_MAC_ROLE_AP then some MacRole.AP
              else if d.device_.ifc_info.mac_role = env.WLAN_MAC_ROLE_MESH then
                some MacRole.MESH
              else none,
            bands := (d.device_.ifc_info.bands.take d.device_.ifc_info.num_bands).map
              (bandCapabilities env d.device_.ifc_info.caps) }, ?_, ?_, ?_, ?_⟩
  · unfold Dispatcher.HandleDeviceQueryRequest
    simp only [hloop]
  · unfold Dispatcher.HandleDeviceQueryRequest
    simp only [hloop]
  · simp only [List.length_map, List.length_take]
    omega
  · intro i band_info hi hget
    refine ⟨bandCapabilities env d.device_.ifc_info.caps band_info, ?_, ?_, ?_, rfl⟩
    · simp only [List.getElem?_map, List.getElem?_take_of_lt hi, hget, Option.map_some']
    · simp only [bandCapabilities, pushNonZero_eq, List.nil_append]
    · simp only [bandCapabilities, pushNonZero_eq, List.nil_append]

/-- Witness for C29: the toy device has two bands in an array of two. -/
theorem HandleDeviceQueryRequest_bands_witness :
    demoDispatcher.device_.ifc_info.num_bands ≤ demoDispatcher.device_.ifc_info.bands.length
      ∧ ∃ resp : DeviceQueryConfirm,
          (demoDispatcher.HandleDeviceQueryRequest demoEnv).2.trace
              = demoDispatcher.trace ++ [Event.SendServiceMsg (ServiceMsg.DeviceQueryConfirm resp)
                  demoEnv.MLMEDeviceQueryConfOrdinal none]
            ∧ (demoDispatcher.HandleDeviceQueryRequest demoEnv).1
              = Except.ok (demoEnv.SendServiceMsg (ServiceMsg.DeviceQueryConfirm resp)
                  demoEnv.MLMEDeviceQueryConfOrdinal none)
            ∧ resp.bands.length = demoDispatcher.device_.ifc_info.num_bands
            ∧ ∀ (i : Nat) (band_info : wlan_band_info_t),
                i < demoDispatcher.device_.ifc_info.num_bands →
                demoDispatcher.device_.ifc_info.bands[i]? = some band_info →
                ∃ band : BandCapabilities,
                  resp.bands[i]? = some band
                    ∧ band.basic_rates = band_info.basic_rates.filter (fun x => x != 0)
                    ∧ band.channels
                      = band_info.supported_channels.channels.filter (fun x => x != 0)
                    ∧ band.base_frequency = band_info.supported_channels.base_freq :=
  ⟨by decide, HandleDeviceQueryRequest_bands demoEnv demoDispatcher (by decide)⟩

/-- The device query on the toy dispatcher: the zero entries are gone, the others
keep their order. -/
theorem demo_HandleDeviceQueryRequest :
    (demoDispatcher.HandleDeviceQueryRequest demoEnv).2.trace
      = [Event.SendServiceMsg (ServiceMsg.DeviceQueryConfirm
          { mac_addr := [1, 2, 3, 4, 5, 6], role := some MacRole.CLIENT,
            bands := [{ band_id := 0, basic_rates := [2, 4, 11], base_frequency := 2407,
                        channels := [1, 6, 11], cap := 0, ht_cap := some 7, vht_cap := none },
                      { band_id := 1, basic_rates := [12, 24], base_frequency := 5000,
                        channels := [36, 40], cap := 0, ht_cap := none, vht_cap := none }] })
          2 none] := by
  decide

end wlan
